import Mathlib

/-!
Shallow embedding of the landing-page backend.  The repository has three
parallel implementations of the same CRUD service: the express file-backed
server and the supabase function (both in src/server/server.js) and the
netlify neon+blobs function (src/unnamed/part_000).  Pure fragments of the
JavaScript are translated into Lean functions; the mutable backing stores
(the items JSON file / SQL table, and the uploads directory / blob store)
become explicit state records threaded through the handlers.  JavaScript
string builtins used by the source (trim, startsWith, the truthiness of
strings in a || b chains) are modelled by small explicit functions.
-/

/-- The fixed default WhatsApp message, `DEFAULT_WHATS_MESSAGE` in all
three variants. -/
def DEFAULT_WHATS_MESSAGE : String :=
  "Ola, me interessei no imovel da landing e quero mais informacoes."

/-- Hosted upload ceiling, `MAX_FILE_SIZE = 40 * 1024 * 1024` in both
hosted functions. -/
def MAX_FILE_SIZE : Nat := 40 * 1024 * 1024

/-- Express upload ceiling, `limits.fileSize = 500 * 1024 * 1024` in the
multer configuration of server.js. -/
def expressMaxFileSize : Nat := 500 * 1024 * 1024

/-- Whitespace for the model of the JavaScript trim builtin. -/
def jsWhitespace (c : Char) : Bool :=
  c = ' ' || c = '\t' || c = '\n' || c = '\r'

/-- Model of the JavaScript string trim builtin: drop leading and trailing
whitespace. -/
def jsTrim (s : String) : String :=
  String.mk (((s.data.dropWhile jsWhitespace).reverse.dropWhile jsWhitespace).reverse)

/-- JavaScript `v || d` for a possibly-absent string `v`: the empty string
is falsy, so `d` wins exactly when `v` is absent or empty. -/
def jsOr (v : Option String) (d : String) : String :=
  match v with
  | some s => if s = "" then d else s
  | none => d

/-- JavaScript truthiness of a possibly-absent string. -/
def truthyOpt (v : Option String) : Bool :=
  match v with
  | some s => s != ""
  | none => false

/-- Model of the JavaScript startsWith builtin. -/
def jsStartsWith (s pre : String) : Bool :=
  pre.data.isPrefixOf s.data

/-- A media entry as the JavaScript objects carry it.  Each variant sets a
subset of the fields: the express variant uses type/url/filename, the
netlify variant type/key/contentType, the supabase variant
type/path/contentType; absent fields are `none`. -/
structure MediaRef where
  type : Option String := none
  url : Option String := none
  filename : Option String := none
  key : Option String := none
  path : Option String := none
  contentType : Option String := none
deriving Repr, DecidableEq

/-- A JavaScript value in a field that the code checks with
`typeof v === "string"`: either a string or some non-string value. -/
inductive JsStr where
  | str (s : String)
  | nonstr
deriving Repr, DecidableEq

/-- A JavaScript value in a field the code checks with `Array.isArray`:
either an array of media entries or some non-array value. -/
inductive MediaField where
  | arr (l : List MediaRef)
  | notArr
deriving Repr, DecidableEq

/-- The list held by a `MediaField`, empty for a non-array. -/
def MediaField.list : MediaField → List MediaRef
  | .arr l => l
  | .notArr => []

/-- A raw item record of the express file-backed variant (an element of the
items.json array).  Legacy records carry top-level url/type/filename. -/
structure RawItem where
  id : String
  title : String
  desc : String
  whatsappMessage : JsStr
  media : MediaField
  type : Option String := none
  url : Option String := none
  filename : Option String := none
  createdAt : String := ""
deriving Repr, DecidableEq

/-- `if (!Array.isArray(item.media) || item.media.length === 0)` in
normalizeItem. -/
def mediaIsMissing (m : MediaField) : Bool :=
  match m with
  | .arr l => l.isEmpty
  | .notArr => true

/-- The single-element media list normalizeItem synthesizes from the legacy
top-level url/type/filename fields, empty when `item.url` is falsy. -/
def legacyMedia (item : RawItem) : List MediaRef :=
  match item.url with
  | some u =>
    if u = "" then []
    else [{ type := some (jsOr item.type "image"), url := some u, filename := item.filename }]
  | none => []

/-- First half of normalizeItem (server.js lines 75-87): materialize the
media list when it is missing or empty. -/
def normalizeMediaStep (item : RawItem) : RawItem :=
  if mediaIsMissing item.media then
    { item with media := MediaField.arr (legacyMedia item) }
  else item

/-- Second half of normalizeItem (server.js lines 88-90): default the
WhatsApp message when it is falsy or not a string. -/
def normalizeWhatsStep (item : RawItem) : RawItem :=
  match item.whatsappMessage with
  | JsStr.str s =>
    if s = "" then { item with whatsappMessage := JsStr.str DEFAULT_WHATS_MESSAGE }
    else item
  | JsStr.nonstr => { item with whatsappMessage := JsStr.str DEFAULT_WHATS_MESSAGE }

/-- normalizeItem of server.js (lines 74-92). -/
def normalizeItem (item : RawItem) : RawItem :=
  normalizeWhatsStep (normalizeMediaStep item)

/-- The public response shape produced by toItemResponse. -/
structure ItemResponse where
  id : String
  title : String
  desc : String
  whatsappMessage : JsStr
  media : List MediaRef
  createdAt : String
deriving Repr, DecidableEq

/-- toItemResponse of server.js (lines 94-107): normalize a copy, project
the public fields; each media entry keeps only type and url. -/
def toItemResponse (item : RawItem) : ItemResponse :=
  let normalized := normalizeItem item
  { id := normalized.id
    title := normalized.title
    desc := normalized.desc
    whatsappMessage := normalized.whatsappMessage
    media := normalized.media.list.map (fun m => { type := m.type, url := m.url })
    createdAt := normalized.createdAt }

/-! ## Filename sanitization -/

/-- The character class `[a-zA-Z0-9._-]` shared by both sanitizers. -/
def isSafeChar (c : Char) : Bool :=
  ('a' ≤ c && c ≤ 'z') || ('A' ≤ c && c ≤ 'Z') || ('0' ≤ c && c ≤ '9') ||
    c = '.' || c = '_' || c = '-'

/-- The multer filename callback of server.js (line 28):
`originalname.replace(/[^a-zA-Z0-9._-]/g, "-")` substitutes each character
outside the class with a dash. -/
def multerSafeName (originalname : String) : String :=
  String.mk (originalname.data.map (fun c => if isSafeChar c then c else '-'))

/-- The stored name the multer diskStorage produces: the unique
timestamp-random fragment, a dash, then the sanitized original name. -/
def multerFilename (unique : String) (originalname : String) : String :=
  unique ++ "-" ++ multerSafeName originalname

/-- `replace(/[^a-zA-Z0-9._-]+/g, "_")`: each maximal run of characters
outside the class becomes one underscore.  The boolean records whether the
previous character was part of such a run. -/
def collapseUnsafe : Bool → List Char → List Char
  | _, [] => []
  | prevBad, c :: rest =>
    if isSafeChar c then c :: collapseUnsafe false rest
    else if prevBad then collapseUnsafe true rest
    else '_' :: collapseUnsafe true rest

/-- sanitizeFilename of the hosted variants (part_000 lines 29-32 and
server.js lines 263-266): `(name || "file")` with runs of unsafe characters
collapsed to underscores, falling back to "file" when empty. -/
def sanitizeFilename (name : String) : String :=
  let base := if name = "" then "file" else name
  let safe := String.mk (collapseUnsafe false base.data)
  if safe = "" then "file" else safe

/-! ## encodeURIComponent model (a JavaScript builtin used by part_000) -/

def hexDigit (n : Nat) : Char :=
  if n < 10 then Char.ofNat (48 + n) else Char.ofNat (55 + n)

def utf8Bytes (n : Nat) : List Nat :=
  if n < 128 then [n]
  else if n < 2048 then [192 + n / 64, 128 + n % 64]
  else if n < 65536 then [224 + n / 4096, 128 + n / 64 % 64, 128 + n % 64]
  else [240 + n / 262144, 128 + n / 4096 % 64, 128 + n / 64 % 64, 128 + n % 64]

/-- The characters encodeURIComponent leaves as-is; 39 is the apostrophe. -/
def isUriUnreserved (c : Char) : Bool :=
  c.isAlphanum || c = '-' || c = '_' || c = '.' || c = '!' || c = '~' || c = '*' ||
    c.toNat = 39 || c = '(' || c = ')'

def percentEncodeChar (c : Char) : List Char :=
  (utf8Bytes c.toNat).foldr (fun b acc => '%' :: hexDigit (b / 16) :: hexDigit (b % 16) :: acc) []

def encodeURIComponent (s : String) : String :=
  String.mk (s.data.foldr
    (fun c acc => (if isUriUnreserved c then [c] else percentEncodeChar c) ++ acc) [])

/-! ## Express (file-backed) variant: state and handlers -/

/-- A file as multer hands it to the express handlers: `filename` is the
name generated by the diskStorage callback, `size` the byte count of the
original upload. -/
structure ExpressFile where
  filename : String
  mimetype : String
  size : Nat := 0
deriving Repr, DecidableEq

/-- The request body fields the express handlers read.  `media` models a
JSON `media` array when one is supplied; the express handlers never read
it. -/
structure ExpressBody where
  title : Option String := none
  desc : Option String := none
  whatsappMessage : Option String := none
  media : Option (List MediaRef) := none
deriving Repr, DecidableEq

/-- The express backing state: the items.json array and the set of file
names present in the uploads directory. -/
structure ExpressState where
  items : List RawItem
  uploads : List String
deriving Repr, DecidableEq

/-- The media list both express handlers build from uploaded files
(server.js lines 126-133 and 180-187). -/
def expressFileMedia (files : List ExpressFile) : List MediaRef :=
  files.map (fun file =>
    { type := some (if jsStartsWith file.mimetype "video/" then "video" else "image")
      url := some ("/uploads/" ++ file.filename)
      filename := some file.filename })

/-- Replace the object the express handler found and mutated: the first
list element with the given id. -/
def replaceFirstItem (tid : String) (u : RawItem) : List RawItem → List RawItem
  | [] => []
  | e :: rest => if e.id == tid then u :: rest else e :: replaceFirstItem tid u rest

/-- `items.splice(index, 1)`: drop the first element with the given id. -/
def removeFirstItem (tid : String) : List RawItem → List RawItem
  | [] => []
  | e :: rest => if e.id == tid then rest else e :: removeFirstItem tid rest

/-- The filenames a media list owns: entries whose `filename` is truthy
(the handlers skip entries without one). -/
def mediaFilenames (media : List MediaRef) : List String :=
  (media.filterMap (fun m => m.filename)).filter (fun f => f != "")

/-- `fs.unlinkSync` for each name (deleting a name not present is a no-op
thanks to the existsSync guard). -/
def unlinkAll (uploads : List String) (names : List String) : List String :=
  names.foldl (fun acc f => acc.filter (fun u => u != f)) uploads

/-- Did any upload exceed the multer `fileSize` limit? -/
def expressAnyOversize (files : List ExpressFile) : Bool :=
  files.any (fun f => decide (expressMaxFileSize < f.size))

/-- The POST /api/items handler body (server.js lines 114-149).  `genId`
and `createdAt` stand for the generated id and timestamp. -/
def expressPostHandler (genId createdAt : String) (st : ExpressState) (body : ExpressBody)
    (files : List ExpressFile) : ExpressState × Nat × Option ItemResponse :=
  let title := jsTrim (jsOr body.title "Novo imovel")
  let desc := jsTrim (jsOr body.desc "Mais detalhes no WhatsApp.")
  let whatsappMessage := jsTrim (jsOr body.whatsappMessage DEFAULT_WHATS_MESSAGE)
  if files.isEmpty then (st, 400, none)
  else
    let media := expressFileMedia files
    let newItem : RawItem :=
      { id := genId
        title := title
        desc := desc
        whatsappMessage := JsStr.str whatsappMessage
        media := MediaField.arr media
        type := some (jsOr (media.head?.bind (fun m => m.type)) "image")
        url := some (jsOr (media.head?.bind (fun m => m.url)) "")
        createdAt := createdAt }
    ({ st with items := st.items ++ [newItem] }, 200, some (toItemResponse newItem))

/-- POST /api/items including the multer middleware: an upload beyond the
limit raises a MulterError before the handler runs, and the error
middleware (server.js lines 223-235) answers 400 with the partial uploads
removed; otherwise multer has stored the files when the handler starts. -/
def expressPost (genId createdAt : String) (st : ExpressState) (body : ExpressBody)
    (files : List ExpressFile) : ExpressState × Nat × Option ItemResponse :=
  if expressAnyOversize files then (st, 400, none)
  else expressPostHandler genId createdAt
    { st with uploads := st.uploads ++ files.map (fun f => f.filename) } body files

/-- The PUT /api/items/:id handler body (server.js lines 151-195). -/
def expressPutHandler (st : ExpressState) (targetId : String) (body : ExpressBody)
    (files : List ExpressFile) : ExpressState × Nat × Option ItemResponse :=
  match st.items.find? (fun e => e.id == targetId) with
  | none => (st, 404, none)
  | some found =>
    let item0 := normalizeItem found
    let prevWhats := match item0.whatsappMessage with
      | JsStr.str s => s
      | JsStr.nonstr => ""
    let title := jsTrim (jsOr body.title item0.title)
    let desc := jsTrim (jsOr body.desc item0.desc)
    let whatsappMessage :=
      jsTrim (jsOr body.whatsappMessage (if prevWhats = "" then DEFAULT_WHATS_MESSAGE else prevWhats))
    let item1 := { item0 with title := title, desc := desc, whatsappMessage := JsStr.str whatsappMessage }
    if files.isEmpty then
      ({ st with items := replaceFirstItem targetId item1 st.items }, 200, some (toItemResponse item1))
    else
      let uploads1 := unlinkAll st.uploads (mediaFilenames item1.media.list)
      let media := expressFileMedia files
      let item2 := { item1 with
        media := MediaField.arr media
        type := some (jsOr (media.head?.bind (fun m => m.type)) "image")
        url := some (jsOr (media.head?.bind (fun m => m.url)) "") }
      ({ items := replaceFirstItem targetId item2 st.items, uploads := uploads1 }, 200,
        some (toItemResponse item2))

/-- PUT /api/items/:id including the multer middleware. -/
def expressPut (st : ExpressState) (targetId : String) (body : ExpressBody)
    (files : List ExpressFile) : ExpressState × Nat × Option ItemResponse :=
  if expressAnyOversize files then (st, 400, none)
  else expressPutHandler
    { st with uploads := st.uploads ++ files.map (fun f => f.filename) } targetId body files

/-- DELETE /api/items/:id (server.js lines 197-221).  The boolean is the
`{ok:true}` body of a 200 response. -/
def expressDelete (st : ExpressState) (targetId : String) : ExpressState × Nat × Bool :=
  match st.items.find? (fun e => e.id == targetId) with
  | none => (st, 404, false)
  | some removed =>
    let items1 := removeFirstItem targetId st.items
    let normalized := normalizeItem removed
    let uploads1 := unlinkAll st.uploads (mediaFilenames normalized.media.list)
    ({ items := items1, uploads := uploads1 }, 200, true)

/-- GET /api/items (server.js lines 109-112). -/
def expressGetItems (st : ExpressState) : List ItemResponse :=
  (st.items.map normalizeItem).map toItemResponse

/-! ## Hosted variants (netlify neon+blobs and supabase): state and handlers -/

/-- A row of the items table (description and whatsapp_message columns are
NOT NULL text, media is a jsonb array). -/
structure DbItem where
  id : String
  title : String
  desc : String
  whatsappMessage : String
  media : List MediaRef
  createdAt : String := ""
deriving Repr, DecidableEq

/-- The hosted backing state: item rows plus the set of blob keys (netlify)
or object paths (supabase) present in the media store. -/
structure HostedState where
  items : List DbItem
  store : List String
deriving Repr, DecidableEq

/-- A file as parseMultipart collects it. -/
structure UploadFile where
  filename : String
  contentType : String
  size : Nat := 0
deriving Repr, DecidableEq

/-- The body fields the hosted handlers read; `media` is `some l` exactly
when `Array.isArray(fields.media)` holds. -/
structure HostedFields where
  title : Option String := none
  desc : Option String := none
  whatsappMessage : Option String := none
  media : Option (List MediaRef) := none
deriving Repr, DecidableEq

/-- An incoming hosted request after body decoding: multipart flag, decoded
fields, and the file parts (ignored unless multipart). -/
structure HostedRequest where
  isMultipart : Bool
  fields : HostedFields
  files : List UploadFile
deriving Repr, DecidableEq

/-- normalizeText of both hosted variants: `(value || "").toString().trim()`. -/
def normalizeText (v : Option String) : String :=
  jsTrim (v.getD "")

/-- Busboy fires the limit event when a file exceeds `MAX_FILE_SIZE`. -/
def anyTooLarge (files : List UploadFile) : Bool :=
  files.any (fun f => decide (MAX_FILE_SIZE < f.size))

/-- parseMultipart of both hosted variants plus the JSON fallback of the
handlers: multipart bodies yield fields and files or a FILE_TOO_LARGE
error; other bodies yield the JSON fields and no files. -/
def hostedParse (req : HostedRequest) : Except Unit (HostedFields × List UploadFile) :=
  if req.isMultipart then
    if anyTooLarge req.files then Except.error () else Except.ok (req.fields, req.files)
  else Except.ok (req.fields, [])

/-- `file.contentType.startsWith("video/") ? "video" : "image"`. -/
def mediaTypeOf (contentType : String) : String :=
  if jsStartsWith contentType "video/" then "video" else "image"

/-- The storage key built per file:
`itemId/Date.now()-randomUUID()-sanitizedName`; `gen i` stands for the
timestamp-uuid fragment of iteration `i`. -/
def mediaKey (gen : Nat → String) (itemId : String) (i : Nat) (file : UploadFile) : String :=
  itemId ++ "/" ++ gen i ++ "-" ++ sanitizeFilename file.filename

/-- The media entries storeFiles of part_000 pushes (key field). -/
def storeFilesMediaFrom (gen : Nat → String) (itemId : String) :
    Nat → List UploadFile → List MediaRef
  | _, [] => []
  | i, f :: rest =>
    { type := some (mediaTypeOf f.contentType)
      key := some (mediaKey gen itemId i f)
      contentType := some f.contentType } :: storeFilesMediaFrom gen itemId (i + 1) rest

/-- The keys storeFiles writes to the media store, in order. -/
def storeFilesKeysFrom (gen : Nat → String) (itemId : String) :
    Nat → List UploadFile → List String
  | _, [] => []
  | i, f :: rest => mediaKey gen itemId i f :: storeFilesKeysFrom gen itemId (i + 1) rest

/-- storeFiles of part_000 (lines 146-161): put each blob under its key and
collect the media entries. -/
def storeFiles (gen : Nat → String) (itemId : String) (files : List UploadFile)
    (store : List String) : List String × List MediaRef :=
  (store ++ storeFilesKeysFrom gen itemId 0 files, storeFilesMediaFrom gen itemId 0 files)

/-- The media entries storeFiles of the supabase variant pushes
(path field, server.js lines 334-354). -/
def storeFilesSupabaseMediaFrom (gen : Nat → String) (itemId : String) :
    Nat → List UploadFile → List MediaRef
  | _, [] => []
  | i, f :: rest =>
    { type := some (mediaTypeOf f.contentType)
      path := some (mediaKey gen itemId i f)
      contentType := some f.contentType } :: storeFilesSupabaseMediaFrom gen itemId (i + 1) rest

/-- storeFiles of the supabase variant. -/
def storeFilesSupabase (gen : Nat → String) (itemId : String) (files : List UploadFile)
    (store : List String) : List String × List MediaRef :=
  (store ++ storeFilesKeysFrom gen itemId 0 files, storeFilesSupabaseMediaFrom gen itemId 0 files)

/-- withMediaUrls of part_000 (lines 34-44): spread the entry and add a
proxy url from the key; entries with a truthy url or no truthy key pass
through unchanged. -/
def withMediaUrls (media : List MediaRef) : List MediaRef :=
  media.map (fun item =>
    if truthyOpt item.url then item
    else match item.key with
      | none => item
      | some k =>
        if k = "" then item
        else { item with url := some ("/.netlify/functions/media/" ++ encodeURIComponent k) })

/-- withPublicUrls of the supabase variant (server.js lines 364-379);
`resolve` stands for the storage SDK's getPublicUrl. -/
def withPublicUrls (resolve : String → String) (media : List MediaRef) : List MediaRef :=
  media.map (fun item =>
    if truthyOpt item.url then item
    else match item.path with
      | none => item
      | some p =>
        if p = "" then item
        else { item with url := some (resolve p) })

/-- The paths a media list owns (removeStoredMedia collects truthy paths). -/
def mediaPaths (media : List MediaRef) : List String :=
  (media.filterMap (fun m => m.path)).filter (fun p => p != "")

/-- removeStoredMedia of the supabase variant (server.js lines 356-362). -/
def removeStoredMedia (store : List String) (media : List MediaRef) : List String :=
  let paths := mediaPaths media
  if paths.isEmpty then store else store.filter (fun k => !(paths.contains k))

/-- The keys a media list owns (the netlify DELETE deletes truthy keys). -/
def mediaKeysOf (media : List MediaRef) : List String :=
  (media.filterMap (fun m => m.key)).filter (fun k => k != "")

/-- `SELECT ... WHERE id = ...` / `.eq("id", id).maybeSingle()`. -/
def findDbItem (items : List DbItem) (id : String) : Option DbItem :=
  items.find? (fun it => it.id == id)

/-- `UPDATE items SET ... WHERE id = ...`: replace every row with the id. -/
def updateDbItems (items : List DbItem) (id : String) (u : DbItem) : List DbItem :=
  items.map (fun it => if it.id == id then u else it)

/-- GET /api/items/:id of part_000 (lines 177-187); the query does not
select created_at, so the response carries none. -/
def netlifyGetOne (st : HostedState) (id : String) : Nat × Option DbItem :=
  match findDbItem st.items id with
  | none => (404, none)
  | some item => (200, some { item with media := withMediaUrls item.media, createdAt := "" })

/-- The POST branch of part_000 after body parsing (lines 217-249). -/
def netlifyPostHandler (gen : Nat → String) (newId : String) (st : HostedState)
    (fields : HostedFields) (files : List UploadFile) : HostedState × Nat × Option DbItem :=
  let title := normalizeText fields.title
  let desc := normalizeText fields.desc
  let whatsappMessage :=
    let t := normalizeText fields.whatsappMessage
    if t = "" then DEFAULT_WHATS_MESSAGE else t
  if title = "" || desc = "" then (st, 400, none)
  else
    let stored :=
      if !files.isEmpty then storeFiles gen newId files st.store
      else match fields.media with
        | some l => (st.store, l)
        | none => (st.store, [])
    if stored.2.isEmpty then ({ st with store := stored.1 }, 400, none)
    else
      let newItem : DbItem :=
        { id := newId
          title := title
          desc := desc
          whatsappMessage := whatsappMessage
          media := stored.2 }
      ({ items := st.items ++ [newItem], store := stored.1 }, 201,
        some { newItem with media := withMediaUrls stored.2 })

/-- POST of part_000 (lines 200-250), including multipart parsing: a file
beyond the ceiling is answered 413 and nothing is stored. -/
def netlifyPost (gen : Nat → String) (newId : String) (st : HostedState)
    (req : HostedRequest) : HostedState × Nat × Option DbItem :=
  match hostedParse req with
  | Except.error _ => (st, 413, none)
  | Except.ok (fields, files) => netlifyPostHandler gen newId st fields files

/-- The PUT branch of part_000 after body parsing (lines 270-304).  With
new files it stores the new blobs and replaces the media list but deletes
none of the old blobs. -/
def netlifyPutHandler (gen : Nat → String) (st : HostedState) (id : String)
    (fields : HostedFields) (files : List UploadFile) : HostedState × Nat × Option DbItem :=
  match findDbItem st.items id with
  | none => (st, 404, none)
  | some current =>
    let nextTitle := let t := normalizeText fields.title; if t = "" then current.title else t
    let nextDesc := let t := normalizeText fields.desc; if t = "" then current.desc else t
    let nextMessage :=
      let t := normalizeText fields.whatsappMessage
      if t = "" then
        (if current.whatsappMessage = "" then DEFAULT_WHATS_MESSAGE else current.whatsappMessage)
      else t
    let stored :=
      if !files.isEmpty then storeFiles gen id files st.store
      else match fields.media with
        | some l => if l.isEmpty then (st.store, current.media) else (st.store, l)
        | none => (st.store, current.media)
    let updated : DbItem :=
      { current with
        title := nextTitle
        desc := nextDesc
        whatsappMessage := nextMessage
        media := stored.2 }
    ({ items := updateDbItems st.items id updated, store := stored.1 }, 200,
      some { updated with media := withMediaUrls stored.2, createdAt := "" })

/-- PUT of part_000 (lines 252-305). -/
def netlifyPut (gen : Nat → String) (st : HostedState) (id : Option String)
    (req : HostedRequest) : HostedState × Nat × Option DbItem :=
  match id with
  | none => (st, 400, none)
  | some id =>
    match hostedParse req with
    | Except.error _ => (st, 413, none)
    | Except.ok (fields, files) => netlifyPutHandler gen st id fields files

/-- DELETE of part_000 (lines 307-322): best-effort blob deletion, then the
row delete; the response is 200 `{ok:true}` whether or not the id existed. -/
def netlifyDelete (st : HostedState) (id : Option String) : HostedState × Nat × Bool :=
  match id with
  | none => (st, 400, false)
  | some id =>
    let store1 := match findDbItem st.items id with
      | none => st.store
      | some item => st.store.filter (fun k => !((mediaKeysOf item.media).contains k))
    ({ items := st.items.filter (fun it => !(it.id == id)), store := store1 }, 200, true)

/-- The POST branch of the supabase variant after body parsing (server.js
lines 488-520).  The db generates the row id (`dbId`); the blob prefix is a
fresh uuid (`mediaItemId`). -/
def supabasePostHandler (gen : Nat → String) (mediaItemId dbId : String)
    (resolve : String → String) (st : HostedState) (fields : HostedFields)
    (files : List UploadFile) : HostedState × Nat × Option DbItem :=
  let title := normalizeText fields.title
  let desc := normalizeText fields.desc
  let whatsappMessage :=
    let t := normalizeText fields.whatsappMessage
    if t = "" then DEFAULT_WHATS_MESSAGE else t
  if title = "" || desc = "" then (st, 400, none)
  else
    let stored :=
      if !files.isEmpty then storeFilesSupabase gen mediaItemId files st.store
      else match fields.media with
        | some l => (st.store, l)
        | none => (st.store, [])
    if stored.2.isEmpty then ({ st with store := stored.1 }, 400, none)
    else
      let newItem : DbItem :=
        { id := dbId
          title := title
          desc := desc
          whatsappMessage := whatsappMessage
          media := stored.2 }
      ({ items := st.items ++ [newItem], store := stored.1 }, 201,
        some { newItem with media := withPublicUrls resolve stored.2 })

/-- POST of the supabase variant (server.js lines 472-521). -/
def supabasePost (gen : Nat → String) (mediaItemId dbId : String) (resolve : String → String)
    (st : HostedState) (req : HostedRequest) : HostedState × Nat × Option DbItem :=
  match hostedParse req with
  | Except.error _ => (st, 413, none)
  | Except.ok (fields, files) => supabasePostHandler gen mediaItemId dbId resolve st fields files

/-- The PUT branch of the supabase variant after body parsing (server.js
lines 541-576).  With new files it first removes the old stored media, then
stores the new blobs. -/
def supabasePutHandler (gen : Nat → String) (resolve : String → String) (st : HostedState)
    (id : String) (fields : HostedFields) (files : List UploadFile) :
    HostedState × Nat × Option DbItem :=
  match findDbItem st.items id with
  | none => (st, 404, none)
  | some current =>
    let nextTitle := let t := normalizeText fields.title; if t = "" then current.title else t
    let nextDesc := let t := normalizeText fields.desc; if t = "" then current.desc else t
    let nextMessage :=
      let t := normalizeText fields.whatsappMessage
      if t = "" then
        (if current.whatsappMessage = "" then DEFAULT_WHATS_MESSAGE else current.whatsappMessage)
      else t
    let stored :=
      if !files.isEmpty then
        storeFilesSupabase gen current.id files (removeStoredMedia st.store current.media)
      else match fields.media with
        | some l => if l.isEmpty then (st.store, current.media) else (st.store, l)
        | none => (st.store, current.media)
    let updated : DbItem :=
      { current with
        title := nextTitle
        desc := nextDesc
        whatsappMessage := nextMessage
        media := stored.2 }
    ({ items := updateDbItems st.items id updated, store := stored.1 }, 200,
      some { updated with media := withPublicUrls resolve stored.2, createdAt := "" })

/-- PUT of the supabase variant (server.js lines 523-577). -/
def supabasePut (gen : Nat → String) (resolve : String → String) (st : HostedState)
    (id : Option String) (req : HostedRequest) : HostedState × Nat × Option DbItem :=
  match id with
  | none => (st, 400, none)
  | some id =>
    match hostedParse req with
    | Except.error _ => (st, 413, none)
    | Except.ok (fields, files) => supabasePutHandler gen resolve st id fields files

/-- DELETE of the supabase variant (server.js lines 579-593): like the
netlify one it answers 200 `{ok:true}` whether or not the id existed. -/
def supabaseDelete (st : HostedState) (id : Option String) : HostedState × Nat × Bool :=
  match id with
  | none => (st, 400, false)
  | some id =>
    let store1 := match findDbItem st.items id with
      | none => st.store
      | some item => removeStoredMedia st.store item.media
    ({ items := st.items.filter (fun it => !(it.id == id)), store := store1 }, 200, true)

section NormalizeLemmas

theorem normalizeMediaStep_url (item : RawItem) :
    (normalizeMediaStep item).url = item.url := by
  unfold normalizeMediaStep; split <;> rfl

theorem normalizeMediaStep_type (item : RawItem) :
    (normalizeMediaStep item).type = item.type := by
  unfold normalizeMediaStep; split <;> rfl

theorem normalizeMediaStep_filename (item : RawItem) :
    (normalizeMediaStep item).filename = item.filename := by
  unfold normalizeMediaStep; split <;> rfl

theorem normalizeMediaStep_whats (item : RawItem) :
    (normalizeMediaStep item).whatsappMessage = item.whatsappMessage := by
  unfold normalizeMediaStep; split <;> rfl

theorem normalizeWhatsStep_media (item : RawItem) :
    (normalizeWhatsStep item).media = item.media := by
  unfold normalizeWhatsStep
  split
  · split <;> rfl
  · rfl

theorem normalizeWhatsStep_url (item : RawItem) :
    (normalizeWhatsStep item).url = item.url := by
  unfold normalizeWhatsStep
  split
  · split <;> rfl
  · rfl

theorem normalizeWhatsStep_type (item : RawItem) :
    (normalizeWhatsStep item).type = item.type := by
  unfold normalizeWhatsStep
  split
  · split <;> rfl
  · rfl

theorem normalizeWhatsStep_filename (item : RawItem) :
    (normalizeWhatsStep item).filename = item.filename := by
  unfold normalizeWhatsStep
  split
  · split <;> rfl
  · rfl

theorem legacyMedia_congr {a b : RawItem} (hu : a.url = b.url)
    (ht : a.type = b.type) (hf : a.filename = b.filename) :
    legacyMedia a = legacyMedia b := by
  unfold legacyMedia; rw [hu, ht, hf]

/-- Setting the media field to its own value is the identity. -/
theorem set_media_self (r : RawItem) : { r with media := r.media } = r := rfl

/-- The default message is not the empty string. -/
theorem default_whats_ne_empty : DEFAULT_WHATS_MESSAGE ≠ "" := by decide

theorem normalizeWhatsStep_idem (item : RawItem) :
    normalizeWhatsStep (normalizeWhatsStep item) = normalizeWhatsStep item := by
  unfold normalizeWhatsStep
  cases h : item.whatsappMessage with
  | str s =>
    by_cases hs : s = ""
    · simp [hs, default_whats_ne_empty]
    · simp [hs, h]
  | nonstr => simp [default_whats_ne_empty]

theorem normalizeMediaStep_idem (item : RawItem) :
    normalizeMediaStep (normalizeMediaStep item) = normalizeMediaStep item := by
  unfold normalizeMediaStep
  by_cases h : mediaIsMissing item.media
  · simp only [h, if_pos]
    have hcongr : legacyMedia { item with media := MediaField.arr (legacyMedia item) }
        = legacyMedia item := legacyMedia_congr rfl rfl rfl
    by_cases hl : legacyMedia item = []
    · have h2 : legacyMedia { item with media := MediaField.arr [] } = legacyMedia item :=
        legacyMedia_congr rfl rfl rfl
      simp [mediaIsMissing, hl, h2]
    · simp [mediaIsMissing, List.isEmpty_iff, hl]
  · simp [h]

end NormalizeLemmas

theorem normalizeMediaStep_id (item : RawItem) :
    (normalizeMediaStep item).id = item.id := by
  unfold normalizeMediaStep; split <;> rfl

theorem normalizeMediaStep_title (item : RawItem) :
    (normalizeMediaStep item).title = item.title := by
  unfold normalizeMediaStep; split <;> rfl

theorem normalizeMediaStep_desc (item : RawItem) :
    (normalizeMediaStep item).desc = item.desc := by
  unfold normalizeMediaStep; split <;> rfl

theorem normalizeWhatsStep_id (item : RawItem) :
    (normalizeWhatsStep item).id = item.id := by
  unfold normalizeWhatsStep
  split
  · split <;> rfl
  · rfl

theorem normalizeWhatsStep_title (item : RawItem) :
    (normalizeWhatsStep item).title = item.title := by
  unfold normalizeWhatsStep
  split
  · split <;> rfl
  · rfl

theorem normalizeWhatsStep_desc (item : RawItem) :
    (normalizeWhatsStep item).desc = item.desc := by
  unfold normalizeWhatsStep
  split
  · split <;> rfl
  · rfl

theorem normalizeItem_id (item : RawItem) : (normalizeItem item).id = item.id := by
  unfold normalizeItem; rw [normalizeWhatsStep_id, normalizeMediaStep_id]

theorem normalizeItem_title (item : RawItem) : (normalizeItem item).title = item.title := by
  unfold normalizeItem; rw [normalizeWhatsStep_title, normalizeMediaStep_title]

theorem normalizeItem_desc (item : RawItem) : (normalizeItem item).desc = item.desc := by
  unfold normalizeItem; rw [normalizeWhatsStep_desc, normalizeMediaStep_desc]

/-- The media step is already settled after one pass of normalizeItem. -/
theorem mediaStep_after_normalize (item : RawItem) :
    normalizeMediaStep (normalizeWhatsStep (normalizeMediaStep item))
      = normalizeWhatsStep (normalizeMediaStep item) := by
  have hxx : normalizeMediaStep (normalizeMediaStep item) = normalizeMediaStep item :=
    normalizeMediaStep_idem item
  set x := normalizeMediaStep item with hx
  unfold normalizeMediaStep at hxx ⊢
  rw [normalizeWhatsStep_media]
  by_cases h : mediaIsMissing x.media = true
  · rw [if_pos h] at hxx ⊢
    have hleg : legacyMedia (normalizeWhatsStep x) = legacyMedia x :=
      legacyMedia_congr (normalizeWhatsStep_url x) (normalizeWhatsStep_type x)
        (normalizeWhatsStep_filename x)
    rw [hleg]
    have hmedia : MediaField.arr (legacyMedia x) = x.media := congrArg RawItem.media hxx
    have h2 : MediaField.arr (legacyMedia x) = (normalizeWhatsStep x).media := by
      rw [normalizeWhatsStep_media, ← hmedia]
    rw [h2, set_media_self]
  · rw [if_neg h]

/-- C6: normalizeItem is idempotent: for every raw item record, applying
normalizeItem to the result of normalizeItem yields the same item as
applying it once. -/
theorem c6_normalizeItem_idempotent (item : RawItem) :
    normalizeItem (normalizeItem item) = normalizeItem item := by
  unfold normalizeItem
  rw [mediaStep_after_normalize, normalizeWhatsStep_idem]

/-- After normalizeItem the media field always holds an array. -/
theorem normalizeItem_media_arr (item : RawItem) :
    ∃ l, (normalizeItem item).media = MediaField.arr l := by
  unfold normalizeItem
  rw [normalizeWhatsStep_media]
  unfold normalizeMediaStep
  by_cases h : mediaIsMissing item.media = true
  · exact ⟨legacyMedia item, by rw [if_pos h]⟩
  · cases hm : item.media with
    | arr l =>
      rw [hm] at h
      exact ⟨l, by rw [if_neg h, hm]⟩
    | notArr => exact absurd (by rw [hm]; rfl) h

/-- After normalizeItem the WhatsApp message is a non-empty string. -/
theorem normalizeItem_whats_str (item : RawItem) :
    ∃ s, (normalizeItem item).whatsappMessage = JsStr.str s ∧ s ≠ "" := by
  unfold normalizeItem normalizeWhatsStep
  cases h : (normalizeMediaStep item).whatsappMessage with
  | str s =>
    by_cases hs : s = ""
    · exact ⟨DEFAULT_WHATS_MESSAGE, by simp [hs], default_whats_ne_empty⟩
    · exact ⟨s, by simp [hs, h], hs⟩
  | nonstr => exact ⟨DEFAULT_WHATS_MESSAGE, by simp, default_whats_ne_empty⟩

/-- A non-string WhatsApp field is replaced with the fixed default. -/
theorem normalizeItem_whats_default (item : RawItem)
    (h : item.whatsappMessage = JsStr.nonstr) :
    (normalizeItem item).whatsappMessage = JsStr.str DEFAULT_WHATS_MESSAGE := by
  unfold normalizeItem normalizeWhatsStep
  rw [normalizeMediaStep_whats, h]

/-- C10: every item produced by normalizeItem has an array (possibly empty)
in its media field and a non-empty string WhatsApp message, and a missing or
non-string input WhatsApp message comes out as the fixed default. -/
theorem c10_normalizeItem_invariants :
    (∀ item : RawItem, ∃ l, (normalizeItem item).media = MediaField.arr l) ∧
    (∀ item : RawItem, ∃ s, (normalizeItem item).whatsappMessage = JsStr.str s ∧ s ≠ "") ∧
    (∀ item : RawItem, item.whatsappMessage = JsStr.nonstr →
      (normalizeItem item).whatsappMessage = JsStr.str DEFAULT_WHATS_MESSAGE) :=
  ⟨normalizeItem_media_arr, normalizeItem_whats_str, normalizeItem_whats_default⟩

/-- Witness for C10 at a concrete malformed record: no media array and a
non-string WhatsApp message. -/
theorem c10_witness :
    (normalizeItem
        { id := "a", title := "t", desc := "d", whatsappMessage := JsStr.nonstr,
          media := MediaField.notArr }).whatsappMessage
      = JsStr.str DEFAULT_WHATS_MESSAGE ∧
    (∃ l, (normalizeItem
        { id := "a", title := "t", desc := "d", whatsappMessage := JsStr.nonstr,
          media := MediaField.notArr }).media = MediaField.arr l) :=
  ⟨c10_normalizeItem_invariants.2.2 _ rfl, c10_normalizeItem_invariants.1 _⟩

theorem isSafeChar_underscore : isSafeChar '_' = true := by decide

theorem isSafeChar_dash : isSafeChar '-' = true := by decide

theorem multerSafeName_all (name : String) :
    (multerSafeName name).data.all isSafeChar = true := by
  unfold multerSafeName
  rw [show (String.mk (name.data.map (fun c => if isSafeChar c then c else '-'))).data
      = name.data.map (fun c => if isSafeChar c then c else '-') from rfl]
  rw [List.all_map, List.all_eq_true]
  intro c _
  by_cases h : isSafeChar c = true <;> simp [h, isSafeChar_dash]

theorem multerSafeName_get (name : String) (i : Nat) (c : Char)
    (h : name.data.get? i = some c) :
    (multerSafeName name).data.get? i = some (if isSafeChar c then c else '-') := by
  unfold multerSafeName
  rw [show (String.mk (name.data.map (fun c => if isSafeChar c then c else '-'))).data
      = name.data.map (fun c => if isSafeChar c then c else '-') from rfl]
  rw [List.get?_map, h]
  rfl

theorem collapseUnsafe_all : ∀ (l : List Char) (b : Bool),
    (collapseUnsafe b l).all isSafeChar = true := by
  intro l
  induction l with
  | nil => intro b; rfl
  | cons c rest ih =>
    intro b
    by_cases hc : isSafeChar c = true
    · simp [collapseUnsafe, hc, ih]
    · cases b
      · simp [collapseUnsafe, hc, ih, isSafeChar_underscore]
      · simp [collapseUnsafe, hc, ih]

theorem sanitizeFilename_all (name : String) :
    (sanitizeFilename name).data.all isSafeChar = true := by
  simp only [sanitizeFilename]
  split
  · decide
  · split
    · decide
    · exact collapseUnsafe_all _ false

theorem collapseUnsafe_mem_underscore :
    ∀ l : List Char, (∃ c ∈ l, isSafeChar c = false) → '_' ∈ collapseUnsafe false l := by
  intro l
  induction l with
  | nil => rintro ⟨c, hc, _⟩; cases hc
  | cons a rest ih =>
    rintro ⟨c, hc, hcs⟩
    by_cases ha : isSafeChar a = true
    · have hr : c ∈ rest := by
        rcases List.mem_cons.mp hc with h1 | h1
        · subst h1; rw [ha] at hcs; cases hcs
        · exact h1
      simp only [collapseUnsafe, ha, if_pos]
      exact List.mem_cons_of_mem _ (ih ⟨c, hr, hcs⟩)
    · simp [collapseUnsafe, ha]

theorem sanitizeFilename_subst (name : String)
    (h : ∃ c ∈ name.data, isSafeChar c = false) :
    '_' ∈ (sanitizeFilename name).data := by
  obtain ⟨c, hc, hcs⟩ := h
  have hne : name ≠ "" := by
    intro he; rw [he] at hc; simp at hc
  have hmem : '_' ∈ collapseUnsafe false name.data :=
    collapseUnsafe_mem_underscore _ ⟨c, hc, hcs⟩
  simp only [sanitizeFilename]
  rw [if_neg hne]
  have hsne : String.mk (collapseUnsafe false name.data) ≠ "" := by
    intro he
    have h2 : collapseUnsafe false name.data = [] := congrArg String.data he
    rw [h2] at hmem; cases hmem
  rw [if_neg hsne]
  exact hmem

/-- C9: a sanitized name used as a storage key fragment contains only
characters from `[A-Za-z0-9._-]`; the multer callback substitutes each
character outside the set with the fixed dash, and the hosted
sanitizeFilename substitutes (runs of) such characters with the fixed
underscore. -/
theorem c9_sanitized_names_safe (name : String) :
    ((multerSafeName name).data.all isSafeChar = true) ∧
    ((sanitizeFilename name).data.all isSafeChar = true) ∧
    (∀ i c, name.data.get? i = some c →
      (multerSafeName name).data.get? i = some (if isSafeChar c then c else '-')) ∧
    ((∃ c ∈ name.data, isSafeChar c = false) → '_' ∈ (sanitizeFilename name).data) :=
  ⟨multerSafeName_all name, sanitizeFilename_all name,
    fun i c h => multerSafeName_get name i c h, sanitizeFilename_subst name⟩

/-- Witness for C9 at the concrete filename "a b!": only safe characters
survive and the unsafe run is replaced by the underscore. -/
theorem c9_witness :
    ((multerSafeName "a b!").data.all isSafeChar = true) ∧
    ((sanitizeFilename "a b!").data.all isSafeChar = true) ∧
    ((multerSafeName "a b!").data.get? 1 = some '-') ∧
    ('_' ∈ (sanitizeFilename "a b!").data) :=
  ⟨(c9_sanitized_names_safe "a b!").1, (c9_sanitized_names_safe "a b!").2.1,
    by
      have h := (c9_sanitized_names_safe "a b!").2.2.1 1 ' ' (by decide)
      simpa using h,
    (c9_sanitized_names_safe "a b!").2.2.2 ⟨' ', by decide, by decide⟩⟩

theorem storeFilesMediaFrom_length (gen : Nat → String) (itemId : String) :
    ∀ (j : Nat) (files : List UploadFile),
      (storeFilesMediaFrom gen itemId j files).length = files.length := by
  intro j files
  induction files generalizing j with
  | nil => rfl
  | cons f rest ih => simp [storeFilesMediaFrom, ih]

theorem storeFilesMediaFrom_get (gen : Nat → String) (itemId : String) :
    ∀ (files : List UploadFile) (j i : Nat) (f : UploadFile), files.get? i = some f →
      (storeFilesMediaFrom gen itemId j files).get? i
        = some { type := some (mediaTypeOf f.contentType)
                 key := some (mediaKey gen itemId (j + i) f)
                 contentType := some f.contentType } := by
  intro files
  induction files with
  | nil => intro j i f h; cases h
  | cons a rest ih =>
    intro j i f h
    cases i with
    | zero =>
      have h1 : a = f := by simpa using h
      subst h1
      simp [storeFilesMediaFrom]
    | succ n =>
      have h1 : rest.get? n = some f := h
      have h2 := ih (j + 1) n f h1
      have h3 : j + 1 + n = j + (n + 1) := by omega
      rw [h3] at h2
      simpa [storeFilesMediaFrom] using h2

theorem storeFilesSupabaseMediaFrom_length (gen : Nat → String) (itemId : String) :
    ∀ (j : Nat) (files : List UploadFile),
      (storeFilesSupabaseMediaFrom gen itemId j files).length = files.length := by
  intro j files
  induction files generalizing j with
  | nil => rfl
  | cons f rest ih => simp [storeFilesSupabaseMediaFrom, ih]

theorem storeFilesSupabaseMediaFrom_get (gen : Nat → String) (itemId : String) :
    ∀ (files : List UploadFile) (j i : Nat) (f : UploadFile), files.get? i = some f →
      (storeFilesSupabaseMediaFrom gen itemId j files).get? i
        = some { type := some (mediaTypeOf f.contentType)
                 path := some (mediaKey gen itemId (j + i) f)
                 contentType := some f.contentType } := by
  intro files
  induction files with
  | nil => intro j i f h; cases h
  | cons a rest ih =>
    intro j i f h
    cases i with
    | zero =>
      have h1 : a = f := by simpa using h
      subst h1
      simp [storeFilesSupabaseMediaFrom]
    | succ n =>
      have h1 : rest.get? n = some f := h
      have h2 := ih (j + 1) n f h1
      have h3 : j + 1 + n = j + (n + 1) := by omega
      rw [h3] at h2
      simpa [storeFilesSupabaseMediaFrom] using h2

theorem expressFileMedia_length (files : List ExpressFile) :
    (expressFileMedia files).length = files.length := by
  unfold expressFileMedia; exact List.length_map _ _

theorem expressFileMedia_get (files : List ExpressFile) (i : Nat) (f : ExpressFile)
    (h : files.get? i = some f) :
    (expressFileMedia files).get? i
      = some { type := some (if jsStartsWith f.mimetype "video/" then "video" else "image")
               url := some ("/uploads/" ++ f.filename)
               filename := some f.filename } := by
  unfold expressFileMedia
  rw [List.get?_map, h]
  rfl

theorem storeFilesMediaFrom_ne_nil (gen : Nat → String) (itemId : String) (j : Nat)
    (files : List UploadFile) (hf : files ≠ []) :
    storeFilesMediaFrom gen itemId j files ≠ [] := by
  cases files with
  | nil => exact absurd rfl hf
  | cons a rest => simp [storeFilesMediaFrom]

theorem storeFilesSupabaseMediaFrom_ne_nil (gen : Nat → String) (itemId : String) (j : Nat)
    (files : List UploadFile) (hf : files ≠ []) :
    storeFilesSupabaseMediaFrom gen itemId j files ≠ [] := by
  cases files with
  | nil => exact absurd rfl hf
  | cons a rest => simp [storeFilesSupabaseMediaFrom]

theorem netlifyPost_files (gen : Nat → String) (newId : String) (st : HostedState)
    (fields : HostedFields) (files : List UploadFile)
    (ht : normalizeText fields.title ≠ "") (hd : normalizeText fields.desc ≠ "")
    (hf : files ≠ []) :
    (netlifyPostHandler gen newId st fields files).2.1 = 201 ∧
    ((netlifyPostHandler gen newId st fields files).1.items.getLast?.map (fun r => r.media)
      = some (storeFilesMediaFrom gen newId 0 files)) ∧
    (netlifyPostHandler gen newId st fields files).1.store
      = st.store ++ storeFilesKeysFrom gen newId 0 files := by
  have hne : files.isEmpty = false := by
    cases files with
    | nil => exact absurd rfl hf
    | cons a r => rfl
  have hmne : (storeFilesMediaFrom gen newId 0 files).isEmpty = false := by
    have h1 := storeFilesMediaFrom_ne_nil gen newId 0 files hf
    cases hsm : storeFilesMediaFrom gen newId 0 files with
    | nil => exact absurd hsm h1
    | cons a r => rfl
  simp [netlifyPostHandler, storeFiles, hne, hmne, ht, hd, List.getLast?_concat]

theorem supabasePost_files (gen : Nat → String) (mediaItemId dbId : String)
    (resolve : String → String) (st : HostedState) (fields : HostedFields)
    (files : List UploadFile)
    (ht : normalizeText fields.title ≠ "") (hd : normalizeText fields.desc ≠ "")
    (hf : files ≠ []) :
    (supabasePostHandler gen mediaItemId dbId resolve st fields files).2.1 = 201 ∧
    ((supabasePostHandler gen mediaItemId dbId resolve st fields files).1.items.getLast?.map
        (fun r => r.media)
      = some (storeFilesSupabaseMediaFrom gen mediaItemId 0 files)) ∧
    (supabasePostHandler gen mediaItemId dbId resolve st fields files).1.store
      = st.store ++ storeFilesKeysFrom gen mediaItemId 0 files := by
  have hne : files.isEmpty = false := by
    cases files with
    | nil => exact absurd rfl hf
    | cons a r => rfl
  have hmne : (storeFilesSupabaseMediaFrom gen mediaItemId 0 files).isEmpty = false := by
    have h1 := storeFilesSupabaseMediaFrom_ne_nil gen mediaItemId 0 files hf
    cases hsm : storeFilesSupabaseMediaFrom gen mediaItemId 0 files with
    | nil => exact absurd hsm h1
    | cons a r => rfl
  simp [supabasePostHandler, storeFilesSupabase, hne, hmne, ht, hd, List.getLast?_concat]

theorem expressPost_files (genId createdAt : String) (st : ExpressState)
    (body : ExpressBody) (files : List ExpressFile) (hf : files ≠ []) :
    (expressPostHandler genId createdAt st body files).2.1 = 200 ∧
    ((expressPostHandler genId createdAt st body files).1.items.getLast?.map (fun r => r.media)
      = some (MediaField.arr (expressFileMedia files))) := by
  have hne : files.isEmpty = false := by
    cases files with
    | nil => exact absurd rfl hf
    | cons a r => rfl
  simp [expressPostHandler, hne, List.getLast?_concat]

/-- C5: an item created from N uploaded files gets exactly N media entries,
in file order, typed "video" exactly when the content type starts with
"video/" and "image" otherwise — in all three variants, and the POST
handlers install exactly that list on the created item. -/
theorem c5_post_builds_media_per_file :
    (∀ (gen : Nat → String) (itemId : String) (j : Nat) (files : List UploadFile),
      (storeFilesMediaFrom gen itemId j files).length = files.length) ∧
    (∀ (gen : Nat → String) (itemId : String) (files : List UploadFile) (j i : Nat)
      (f : UploadFile), files.get? i = some f →
      ((storeFilesMediaFrom gen itemId j files).get? i).map (fun m => m.type)
        = some (some (mediaTypeOf f.contentType))) ∧
    (∀ (gen : Nat → String) (itemId : String) (j : Nat) (files : List UploadFile),
      (storeFilesSupabaseMediaFrom gen itemId j files).length = files.length) ∧
    (∀ (gen : Nat → String) (itemId : String) (files : List UploadFile) (j i : Nat)
      (f : UploadFile), files.get? i = some f →
      ((storeFilesSupabaseMediaFrom gen itemId j files).get? i).map (fun m => m.type)
        = some (some (mediaTypeOf f.contentType))) ∧
    (∀ files : List ExpressFile, (expressFileMedia files).length = files.length) ∧
    (∀ (files : List ExpressFile) (i : Nat) (f : ExpressFile), files.get? i = some f →
      ((expressFileMedia files).get? i).map (fun m => m.type)
        = some (some (if jsStartsWith f.mimetype "video/" then "video" else "image"))) ∧
    (∀ (gen : Nat → String) (newId : String) (st : HostedState) (fields : HostedFields)
      (files : List UploadFile), normalizeText fields.title ≠ "" →
      normalizeText fields.desc ≠ "" → files ≠ [] →
      (netlifyPostHandler gen newId st fields files).2.1 = 201 ∧
      ((netlifyPostHandler gen newId st fields files).1.items.getLast?.map (fun r => r.media)
        = some (storeFilesMediaFrom gen newId 0 files))) ∧
    (∀ (genId createdAt : String) (st : ExpressState) (body : ExpressBody)
      (files : List ExpressFile), files ≠ [] →
      ((expressPostHandler genId createdAt st body files).1.items.getLast?.map (fun r => r.media)
        = some (MediaField.arr (expressFileMedia files)))) := by
  refine ⟨storeFilesMediaFrom_length, ?_, storeFilesSupabaseMediaFrom_length, ?_,
    expressFileMedia_length, ?_, ?_, ?_⟩
  · intro gen itemId files j i f h
    rw [storeFilesMediaFrom_get gen itemId files j i f h]
    rfl
  · intro gen itemId files j i f h
    rw [storeFilesSupabaseMediaFrom_get gen itemId files j i f h]
    rfl
  · intro files i f h
    rw [expressFileMedia_get files i f h]
    rfl
  · intro gen newId st fields files ht hd hf
    exact ⟨(netlifyPost_files gen newId st fields files ht hd hf).1,
      (netlifyPost_files gen newId st fields files ht hd hf).2.1⟩
  · intro genId createdAt st body files hf
    exact (expressPost_files genId createdAt st body files hf).2

/-- Witness for C5: two concrete files, one image and one video. -/
theorem c5_witness :
    ((storeFilesMediaFrom (fun _ => "u0") "id0" 0
        [{ filename := "a.png", contentType := "image/png" },
         { filename := "b.mp4", contentType := "video/mp4" }]).length = 2) ∧
    (((storeFilesMediaFrom (fun _ => "u0") "id0" 0
        [{ filename := "a.png", contentType := "image/png" },
         { filename := "b.mp4", contentType := "video/mp4" }]).get? 1).map (fun m => m.type)
      = some (some "video")) ∧
    (((expressFileMedia [{ filename := "x", mimetype := "image/png" }]).get? 0).map
        (fun m => m.type) = some (some "image")) ∧
    ((netlifyPostHandler (fun _ => "u0") "n1" { items := [], store := [] }
        { title := some "T", desc := some "D" }
        [{ filename := "a.png", contentType := "image/png" }]).2.1 = 201) := by
  refine ⟨?_, ?_, ?_, ?_⟩
  · have h := c5_post_builds_media_per_file.1 (fun _ => "u0") "id0" 0
      [{ filename := "a.png", contentType := "image/png" },
       { filename := "b.mp4", contentType := "video/mp4" }]
    exact h.trans (by decide)
  · have h := c5_post_builds_media_per_file.2.1 (fun _ => "u0") "id0"
      [{ filename := "a.png", contentType := "image/png" },
       { filename := "b.mp4", contentType := "video/mp4" }] 0 1
      { filename := "b.mp4", contentType := "video/mp4" } (by decide)
    exact h.trans (by decide)
  · have h := c5_post_builds_media_per_file.2.2.2.2.2.1
      [{ filename := "x", mimetype := "image/png" }] 0
      { filename := "x", mimetype := "image/png" } (by decide)
    exact h.trans (by decide)
  · exact (c5_post_builds_media_per_file.2.2.2.2.2.2.1 (fun _ => "u0") "n1"
      { items := [], store := [] } { title := some "T", desc := some "D" }
      [{ filename := "a.png", contentType := "image/png" }]
      (by decide) (by decide) (by decide)).1

theorem findDbItem_id {items : List DbItem} {id : String} {c : DbItem}
    (h : findDbItem items id = some c) : c.id = id := by
  have h2 := List.find?_some h
  simpa using h2

theorem findDbItem_update {items : List DbItem} {id : String} {c u : DbItem}
    (h : findDbItem items id = some c) (hu : u.id = id) :
    findDbItem (updateDbItems items id u) id = some u := by
  unfold findDbItem updateDbItems
  unfold findDbItem at h
  induction items with
  | nil => cases h
  | cons a rest ih =>
    by_cases ha : (a.id == id) = true
    · simp only [List.map_cons]
      rw [if_pos ha, List.find?_cons_of_pos _ (by simp [hu])]
    · rw [List.find?_cons_of_neg _ (by simpa using ha)] at h
      simp only [List.map_cons]
      rw [if_neg (by simpa using ha), List.find?_cons_of_neg _ (by simpa using ha)]
      exact ih h

theorem find?_replaceFirstItem {items : List RawItem} {tid : String} {c u : RawItem}
    (h : items.find? (fun e => e.id == tid) = some c) (hu : u.id = tid) :
    (replaceFirstItem tid u items).find? (fun e => e.id == tid) = some u := by
  induction items with
  | nil => cases h
  | cons a rest ih =>
    by_cases ha : (a.id == tid) = true
    · unfold replaceFirstItem
      rw [if_pos ha, List.find?_cons_of_pos _ (by simp [hu])]
    · rw [List.find?_cons_of_neg _ (by simpa using ha)] at h
      unfold replaceFirstItem
      rw [if_neg (by simpa using ha), List.find?_cons_of_neg _ (by simpa using ha)]
      exact ih h

theorem rawFind_id {items : List RawItem} {tid : String} {c : RawItem}
    (h : items.find? (fun e => e.id == tid) = some c) : c.id = tid := by
  have h2 := List.find?_some h
  simpa using h2

theorem filter_id_of_none {items : List DbItem} {id : String}
    (h : findDbItem items id = none) :
    items.filter (fun it => !(it.id == id)) = items := by
  rw [List.filter_eq_self]
  intro a ha
  have h2 := List.find?_eq_none.mp h a ha
  simpa using h2

theorem unlinkAll_cons (uploads : List String) (n : String) (names : List String) :
    unlinkAll uploads (n :: names) = unlinkAll (uploads.filter (fun u => u != n)) names := rfl

theorem mem_unlinkAll {uploads names : List String} {x : String}
    (h : x ∈ unlinkAll uploads names) : x ∈ uploads := by
  induction names generalizing uploads with
  | nil => exact h
  | cons n rest ih =>
    rw [unlinkAll_cons] at h
    exact List.mem_of_mem_filter (ih h)

theorem not_mem_unlinkAll {uploads names : List String} {f : String}
    (hf : f ∈ names) : f ∉ unlinkAll uploads names := by
  induction names generalizing uploads with
  | nil => cases hf
  | cons n rest ih =>
    intro hmem
    rw [unlinkAll_cons] at hmem
    rcases List.mem_cons.mp hf with h1 | h1
    · subst h1
      have h2 := mem_unlinkAll hmem
      have h3 := (List.mem_filter.mp h2).2
      simp at h3
    · exact ih h1 hmem

theorem not_mem_removeStoredMedia {store : List String} {media : List MediaRef} {p : String}
    (hp : p ∈ mediaPaths media) : p ∉ removeStoredMedia store media := by
  have hne : (mediaPaths media).isEmpty = false := by
    cases hm : mediaPaths media with
    | nil => rw [hm] at hp; cases hp
    | cons a r => rfl
  simp only [removeStoredMedia, hne, Bool.false_eq_true, if_false]
  intro hmem
  have h2 := (List.mem_filter.mp hmem).2
  have h3 : (mediaPaths media).contains p = true := by simpa using hp
  rw [h3] at h2
  cases h2

theorem netlifyPut_keep_media (gen : Nat → String) (st : HostedState) (id : String)
    (fields : HostedFields) (c : DbItem) (h : findDbItem st.items id = some c)
    (hm : fields.media = none ∨ fields.media = some []) :
    (netlifyPutHandler gen st id fields []).1.store = st.store ∧
    ((findDbItem (netlifyPutHandler gen st id fields []).1.items id).map (fun r => r.media)
      = some c.media) ∧
    (netlifyPutHandler gen st id fields []).2.1 = 200 := by
  have hcid : c.id = id := findDbItem_id h
  rcases hm with hm | hm <;>
  · refine ⟨?_, ?_, ?_⟩
    · simp [netlifyPutHandler, h, hm]
    · simp only [netlifyPutHandler, h, hm]
      rw [findDbItem_update h]
      · rfl
      · exact hcid
    · simp [netlifyPutHandler, h, hm]

theorem netlifyPut_descriptor_media (gen : Nat → String) (st : HostedState) (id : String)
    (fields : HostedFields) (c : DbItem) (l : List MediaRef)
    (h : findDbItem st.items id = some c) (hm : fields.media = some l) (hl : l ≠ []) :
    (netlifyPutHandler gen st id fields []).1.store = st.store ∧
    ((findDbItem (netlifyPutHandler gen st id fields []).1.items id).map (fun r => r.media)
      = some l) ∧
    (netlifyPutHandler gen st id fields []).2.1 = 200 := by
  have hcid : c.id = id := findDbItem_id h
  have hle : l.isEmpty = false := by
    cases l with
    | nil => exact absurd rfl hl
    | cons a r => rfl
  refine ⟨?_, ?_, ?_⟩
  · simp [netlifyPutHandler, h, hm, hle]
  · simp only [netlifyPutHandler, h, hm, hle]
    rw [findDbItem_update h]
    · simp
    · exact hcid
  · simp [netlifyPutHandler, h, hm, hle]

theorem netlifyPut_files_media (gen : Nat → String) (st : HostedState) (id : String)
    (fields : HostedFields) (files : List UploadFile) (c : DbItem)
    (h : findDbItem st.items id = some c) (hf : files ≠ []) :
    (netlifyPutHandler gen st id fields files).1.store
      = st.store ++ storeFilesKeysFrom gen id 0 files ∧
    ((findDbItem (netlifyPutHandler gen st id fields files).1.items id).map (fun r => r.media)
      = some (storeFilesMediaFrom gen id 0 files)) ∧
    (netlifyPutHandler gen st id fields files).2.1 = 200 := by
  have hcid : c.id = id := findDbItem_id h
  have hne : files.isEmpty = false := by
    cases files with
    | nil => exact absurd rfl hf
    | cons a r => rfl
  refine ⟨?_, ?_, ?_⟩
  · simp [netlifyPutHandler, h, hne, storeFiles]
  · simp only [netlifyPutHandler, h, hne, storeFiles]
    rw [findDbItem_update h]
    · simp
    · exact hcid
  · simp [netlifyPutHandler, h, hne]

theorem supabasePut_keep_media (gen : Nat → String) (resolve : String → String)
    (st : HostedState) (id : String) (fields : HostedFields) (c : DbItem)
    (h : findDbItem st.items id = some c)
    (hm : fields.media = none ∨ fields.media = some []) :
    (supabasePutHandler gen resolve st id fields []).1.store = st.store ∧
    ((findDbItem (supabasePutHandler gen resolve st id fields []).1.items id).map
        (fun r => r.media) = some c.media) ∧
    (supabasePutHandler gen resolve st id fields []).2.1 = 200 := by
  have hcid : c.id = id := findDbItem_id h
  rcases hm with hm | hm <;>
  · refine ⟨?_, ?_, ?_⟩
    · simp [supabasePutHandler, h, hm]
    · simp only [supabasePutHandler, h, hm]
      rw [findDbItem_update h]
      · rfl
      · exact hcid
    · simp [supabasePutHandler, h, hm]

theorem supabasePut_files_media (gen : Nat → String) (resolve : String → String)
    (st : HostedState) (id : String) (fields : HostedFields) (files : List UploadFile)
    (c : DbItem) (h : findDbItem st.items id = some c) (hf : files ≠ []) :
    (supabasePutHandler gen resolve st id fields files).1.store
      = removeStoredMedia st.store c.media ++ storeFilesKeysFrom gen c.id 0 files ∧
    ((findDbItem (supabasePutHandler gen resolve st id fields files).1.items id).map
        (fun r => r.media) = some (storeFilesSupabaseMediaFrom gen c.id 0 files)) ∧
    (supabasePutHandler gen resolve st id fields files).2.1 = 200 ∧
    (∀ p ∈ mediaPaths c.media, p ∉ removeStoredMedia st.store c.media) := by
  have hcid : c.id = id := findDbItem_id h
  have hne : files.isEmpty = false := by
    cases files with
    | nil => exact absurd rfl hf
    | cons a r => rfl
  refine ⟨?_, ?_, ?_, ?_⟩
  · simp [supabasePutHandler, h, hne, storeFilesSupabase]
  · simp only [supabasePutHandler, h, hne, storeFilesSupabase]
    rw [findDbItem_update h]
    · simp
    · exact hcid
  · simp [supabasePutHandler, h, hne]
  · intro p hp
    exact not_mem_removeStoredMedia hp

theorem expressPut_keep_media (st : ExpressState) (targetId : String) (body : ExpressBody)
    (found : RawItem) (h : st.items.find? (fun e => e.id == targetId) = some found) :
    (expressPutHandler st targetId body []).1.uploads = st.uploads ∧
    (((expressPutHandler st targetId body []).1.items.find? (fun e => e.id == targetId)).map
        (fun e => e.media) = some (normalizeItem found).media) ∧
    (expressPutHandler st targetId body []).2.1 = 200 := by
  have hid : found.id = targetId := rawFind_id h
  refine ⟨?_, ?_, ?_⟩
  · simp [expressPutHandler, h]
  · simp only [expressPutHandler, h, List.isEmpty_nil, if_true]
    rw [find?_replaceFirstItem h]
    · rfl
    · show (normalizeItem found).id = targetId
      rw [normalizeItem_id]; exact hid
  · simp [expressPutHandler, h]

theorem expressPut_files_media (st : ExpressState) (targetId : String) (body : ExpressBody)
    (files : List ExpressFile) (found : RawItem)
    (h : st.items.find? (fun e => e.id == targetId) = some found) (hf : files ≠ []) :
    (((expressPutHandler st targetId body files).1.items.find? (fun e => e.id == targetId)).map
        (fun e => e.media) = some (MediaField.arr (expressFileMedia files))) ∧
    (∀ f ∈ mediaFilenames (normalizeItem found).media.list,
      f ∉ (expressPutHandler st targetId body files).1.uploads) ∧
    (expressPutHandler st targetId body files).2.1 = 200 := by
  have hid : found.id = targetId := rawFind_id h
  have hne : files.isEmpty = false := by
    cases files with
    | nil => exact absurd rfl hf
    | cons a r => rfl
  refine ⟨?_, ?_, ?_⟩
  · simp only [expressPutHandler, h, hne, Bool.false_eq_true, if_false]
    rw [find?_replaceFirstItem h]
    · rfl
    · show (normalizeItem found).id = targetId
      rw [normalizeItem_id]; exact hid
  · intro f hfm
    simp only [expressPutHandler, h, hne, Bool.false_eq_true, if_false]
    exact not_mem_unlinkAll hfm
  · simp [expressPutHandler, h, hne]

theorem supabasePut_descriptor_media (gen : Nat → String) (resolve : String → String)
    (st : HostedState) (id : String) (fields : HostedFields) (c : DbItem) (l : List MediaRef)
    (h : findDbItem st.items id = some c) (hm : fields.media = some l) (hl : l ≠ []) :
    (supabasePutHandler gen resolve st id fields []).1.store = st.store ∧
    ((findDbItem (supabasePutHandler gen resolve st id fields []).1.items id).map
        (fun r => r.media) = some l) ∧
    (supabasePutHandler gen resolve st id fields []).2.1 = 200 := by
  have hcid : c.id = id := findDbItem_id h
  have hle : l.isEmpty = false := by
    cases l with
    | nil => exact absurd rfl hl
    | cons a r => rfl
  refine ⟨?_, ?_, ?_⟩
  · simp [supabasePutHandler, h, hm, hle]
  · simp only [supabasePutHandler, h, hm, hle]
    rw [findDbItem_update h]
    · simp
    · exact hcid
  · simp [supabasePutHandler, h, hm, hle]

/-- C1 (amended): for a PUT on an existing item — if no new files and no
non-empty media descriptor array are supplied, the media list and the media
store are unchanged (in the local variant the kept list is the normalized
previous list); if a non-empty descriptor array but no files is supplied,
the hosted variants replace the media list with it; if new files are
supplied, the media list afterwards consists exactly of the MediaRefs built
from the new files, and the local and supabase variants delete the
previously owned blobs while the netlify variant keeps every old blob in
the media store. -/
theorem c1_put_media_frame :
    (∀ (gen : Nat → String) (st : HostedState) (id : String) (fields : HostedFields)
      (c : DbItem), findDbItem st.items id = some c →
      (fields.media = none ∨ fields.media = some []) →
      (netlifyPutHandler gen st id fields []).1.store = st.store ∧
      ((findDbItem (netlifyPutHandler gen st id fields []).1.items id).map (fun r => r.media)
        = some c.media)) ∧
    (∀ (gen : Nat → String) (st : HostedState) (id : String) (fields : HostedFields)
      (c : DbItem) (l : List MediaRef), findDbItem st.items id = some c →
      fields.media = some l → l ≠ [] →
      (netlifyPutHandler gen st id fields []).1.store = st.store ∧
      ((findDbItem (netlifyPutHandler gen st id fields []).1.items id).map (fun r => r.media)
        = some l)) ∧
    (∀ (gen : Nat → String) (st : HostedState) (id : String) (fields : HostedFields)
      (files : List UploadFile) (c : DbItem), findDbItem st.items id = some c → files ≠ [] →
      ((netlifyPutHandler gen st id fields files).1.store
        = st.store ++ storeFilesKeysFrom gen id 0 files) ∧
      (∀ k ∈ st.store, k ∈ (netlifyPutHandler gen st id fields files).1.store) ∧
      ((findDbItem (netlifyPutHandler gen st id fields files).1.items id).map (fun r => r.media)
        = some (storeFilesMediaFrom gen id 0 files))) ∧
    (∀ (gen : Nat → String) (resolve : String → String) (st : HostedState) (id : String)
      (fields : HostedFields) (c : DbItem), findDbItem st.items id = some c →
      (fields.media = none ∨ fields.media = some []) →
      (supabasePutHandler gen resolve st id fields []).1.store = st.store ∧
      ((findDbItem (supabasePutHandler gen resolve st id fields []).1.items id).map
        (fun r => r.media) = some c.media)) ∧
    (∀ (gen : Nat → String) (resolve : String → String) (st : HostedState) (id : String)
      (fields : HostedFields) (c : DbItem) (l : List MediaRef),
      findDbItem st.items id = some c → fields.media = some l → l ≠ [] →
      ((findDbItem (supabasePutHandler gen resolve st id fields []).1.items id).map
        (fun r => r.media) = some l)) ∧
    (∀ (gen : Nat → String) (resolve : String → String) (st : HostedState) (id : String)
      (fields : HostedFields) (files : List UploadFile) (c : DbItem),
      findDbItem st.items id = some c → files ≠ [] →
      ((supabasePutHandler gen resolve st id fields files).1.store
        = removeStoredMedia st.store c.media ++ storeFilesKeysFrom gen c.id 0 files) ∧
      (∀ p ∈ mediaPaths c.media, p ∉ removeStoredMedia st.store c.media) ∧
      ((findDbItem (supabasePutHandler gen resolve st id fields files).1.items id).map
        (fun r => r.media) = some (storeFilesSupabaseMediaFrom gen c.id 0 files))) ∧
    (∀ (st : ExpressState) (targetId : String) (body : ExpressBody) (found : RawItem),
      st.items.find? (fun e => e.id == targetId) = some found →
      (expressPutHandler st targetId body []).1.uploads = st.uploads ∧
      (((expressPutHandler st targetId body []).1.items.find? (fun e => e.id == targetId)).map
        (fun e => e.media) = some (normalizeItem found).media)) ∧
    (∀ (st : ExpressState) (targetId : String) (body : ExpressBody) (files : List ExpressFile)
      (found : RawItem), st.items.find? (fun e => e.id == targetId) = some found → files ≠ [] →
      (((expressPutHandler st targetId body files).1.items.find? (fun e => e.id == targetId)).map
        (fun e => e.media) = some (MediaField.arr (expressFileMedia files))) ∧
      (∀ f ∈ mediaFilenames (normalizeItem found).media.list,
        f ∉ (expressPutHandler st targetId body files).1.uploads)) := by
  refine ⟨?_, ?_, ?_, ?_, ?_, ?_, ?_, ?_⟩
  · intro gen st id fields c h hm
    exact ⟨(netlifyPut_keep_media gen st id fields c h hm).1,
      (netlifyPut_keep_media gen st id fields c h hm).2.1⟩
  · intro gen st id fields c l h hm hl
    exact ⟨(netlifyPut_descriptor_media gen st id fields c l h hm hl).1,
      (netlifyPut_descriptor_media gen st id fields c l h hm hl).2.1⟩
  · intro gen st id fields files c h hf
    obtain ⟨h1, h2, _⟩ := netlifyPut_files_media gen st id fields files c h hf
    exact ⟨h1, fun k hk => by rw [h1]; exact List.mem_append_left _ hk, h2⟩
  · intro gen resolve st id fields c h hm
    exact ⟨(supabasePut_keep_media gen resolve st id fields c h hm).1,
      (supabasePut_keep_media gen resolve st id fields c h hm).2.1⟩
  · intro gen resolve st id fields c l h hm hl
    exact (supabasePut_descriptor_media gen resolve st id fields c l h hm hl).2.1
  · intro gen resolve st id fields files c h hf
    obtain ⟨h1, h2, _, h4⟩ := supabasePut_files_media gen resolve st id fields files c h hf
    exact ⟨h1, h4, h2⟩
  · intro st targetId body found h
    exact ⟨(expressPut_keep_media st targetId body found h).1,
      (expressPut_keep_media st targetId body found h).2.1⟩
  · intro st targetId body files found h hf
    exact ⟨(expressPut_files_media st targetId body files found h hf).1,
      (expressPut_files_media st targetId body files found h hf).2.1⟩

/-- C1 counterexample: in the netlify variant, a PUT with one new file on
an item owning blob "k" leaves "k" in the media store (the claim demands
its deletion), and a PUT with no files but with a media descriptor array
replaces the media list (the claim demands it stay unchanged). -/
theorem c1_counterexample :
    ("k" ∈ (netlifyPutHandler (fun _ => "u")
        { items := [{ id := "a", title := "T", desc := "D", whatsappMessage := "W",
                      media := [{ type := some "image", key := some "k" }] }],
          store := ["k"] } "a" {}
        [{ filename := "f.png", contentType := "image/png", size := 10 }]).1.store) ∧
    ((findDbItem (netlifyPutHandler (fun _ => "u")
        { items := [{ id := "a", title := "T", desc := "D", whatsappMessage := "W",
                      media := [{ type := some "image", key := some "k" }] }],
          store := ["k"] } "a"
        { media := some [{ type := some "image", url := some "x.jpg" }] } []).1.items "a").map
          (fun r => r.media)
      = some [{ type := some "image", url := some "x.jpg" }]) ∧
    ([({ type := some "image", url := some "x.jpg" } : MediaRef)]
      ≠ [({ type := some "image", key := some "k" } : MediaRef)]) := by
  refine ⟨?_, ?_, ?_⟩ <;> decide

/-- Witness for C1 (amended) at concrete states: a netlify PUT without
files or descriptors leaves the store untouched, and an express PUT with a
new file unlinks the previously owned upload. -/
theorem c1_witness :
    ((netlifyPutHandler (fun _ => "u")
        { items := [{ id := "a", title := "T", desc := "D", whatsappMessage := "W",
                      media := [{ type := some "image", key := some "k" }] }],
          store := ["k"] } "a" {} []).1.store = ["k"]) ∧
    ("old.png" ∉ (expressPutHandler
        { items := [{ id := "a", title := "T", desc := "D",
                      whatsappMessage := JsStr.str "W",
                      media := MediaField.arr
                        [{ type := some "image"
                           url := some "/uploads/old.png"
                           filename := some "old.png" }] }],
          uploads := ["old.png"] } "a" {}
        [{ filename := "new.png", mimetype := "image/png" }]).1.uploads) :=
  ⟨(c1_put_media_frame.1 (fun _ => "u")
      { items := [{ id := "a", title := "T", desc := "D", whatsappMessage := "W",
                    media := [{ type := some "image", key := some "k" }] }],
        store := ["k"] } "a" {}
      { id := "a", title := "T", desc := "D", whatsappMessage := "W",
        media := [{ type := some "image", key := some "k" }] }
      (by decide) (Or.inl rfl)).1,
   (c1_put_media_frame.2.2.2.2.2.2.2
      { items := [{ id := "a", title := "T", desc := "D",
                    whatsappMessage := JsStr.str "W",
                    media := MediaField.arr
                      [{ type := some "image"
                         url := some "/uploads/old.png"
                         filename := some "old.png" }] }],
        uploads := ["old.png"] } "a" {}
      [{ filename := "new.png", mimetype := "image/png" }]
      { id := "a", title := "T", desc := "D", whatsappMessage := JsStr.str "W",
        media := MediaField.arr
          [{ type := some "image"
             url := some "/uploads/old.png"
             filename := some "old.png" }] }
      (by decide) (by decide)).2 "old.png" (by decide)⟩

theorem netlifyPut_fields (gen : Nat → String) (st : HostedState) (id : String)
    (fields : HostedFields) (files : List UploadFile) (c : DbItem)
    (h : findDbItem st.items id = some c) :
    ((findDbItem (netlifyPutHandler gen st id fields files).1.items id).map (fun r => r.title)
      = some (if normalizeText fields.title = "" then c.title
          else normalizeText fields.title)) ∧
    ((findDbItem (netlifyPutHandler gen st id fields files).1.items id).map (fun r => r.desc)
      = some (if normalizeText fields.desc = "" then c.desc
          else normalizeText fields.desc)) ∧
    ((findDbItem (netlifyPutHandler gen st id fields files).1.items id).map
        (fun r => r.whatsappMessage)
      = some (if normalizeText fields.whatsappMessage = ""
          then (if c.whatsappMessage = "" then DEFAULT_WHATS_MESSAGE else c.whatsappMessage)
          else normalizeText fields.whatsappMessage)) := by
  have hcid : c.id = id := findDbItem_id h
  refine ⟨?_, ?_, ?_⟩ <;>
  · simp only [netlifyPutHandler, h]
    rw [findDbItem_update h]
    · rfl
    · exact hcid

theorem supabasePut_fields (gen : Nat → String) (resolve : String → String)
    (st : HostedState) (id : String) (fields : HostedFields) (files : List UploadFile)
    (c : DbItem) (h : findDbItem st.items id = some c) :
    ((findDbItem (supabasePutHandler gen resolve st id fields files).1.items id).map
        (fun r => r.title)
      = some (if normalizeText fields.title = "" then c.title
          else normalizeText fields.title)) ∧
    ((findDbItem (supabasePutHandler gen resolve st id fields files).1.items id).map
        (fun r => r.desc)
      = some (if normalizeText fields.desc = "" then c.desc
          else normalizeText fields.desc)) ∧
    ((findDbItem (supabasePutHandler gen resolve st id fields files).1.items id).map
        (fun r => r.whatsappMessage)
      = some (if normalizeText fields.whatsappMessage = ""
          then (if c.whatsappMessage = "" then DEFAULT_WHATS_MESSAGE else c.whatsappMessage)
          else normalizeText fields.whatsappMessage)) := by
  have hcid : c.id = id := findDbItem_id h
  refine ⟨?_, ?_, ?_⟩ <;>
  · simp only [supabasePutHandler, h]
    rw [findDbItem_update h]
    · rfl
    · exact hcid

theorem expressPut_title_desc (st : ExpressState) (targetId : String) (body : ExpressBody)
    (files : List ExpressFile) (found : RawItem)
    (h : st.items.find? (fun e => e.id == targetId) = some found) :
    (((expressPutHandler st targetId body files).1.items.find? (fun e => e.id == targetId)).map
        (fun e => e.title) = some (jsTrim (jsOr body.title found.title))) ∧
    (((expressPutHandler st targetId body files).1.items.find? (fun e => e.id == targetId)).map
        (fun e => e.desc) = some (jsTrim (jsOr body.desc found.desc))) := by
  have hid : found.id = targetId := rawFind_id h
  constructor
  · simp only [expressPutHandler, h]
    split <;>
    · rw [find?_replaceFirstItem h]
      · show some (jsTrim (jsOr body.title (normalizeItem found).title))
          = some (jsTrim (jsOr body.title found.title))
        rw [normalizeItem_title]
      · show (normalizeItem found).id = targetId
        rw [normalizeItem_id]; exact hid
  · simp only [expressPutHandler, h]
    split <;>
    · rw [find?_replaceFirstItem h]
      · show some (jsTrim (jsOr body.desc (normalizeItem found).desc))
          = some (jsTrim (jsOr body.desc found.desc))
        rw [normalizeItem_desc]
      · show (normalizeItem found).id = targetId
        rw [normalizeItem_id]; exact hid

theorem expressPut_whats (st : ExpressState) (targetId : String) (body : ExpressBody)
    (files : List ExpressFile) (found : RawItem)
    (h : st.items.find? (fun e => e.id == targetId) = some found) :
    ∃ w, (normalizeItem found).whatsappMessage = JsStr.str w ∧ w ≠ "" ∧
      (((expressPutHandler st targetId body files).1.items.find?
          (fun e => e.id == targetId)).map (fun e => e.whatsappMessage)
        = some (JsStr.str (jsTrim (jsOr body.whatsappMessage w)))) := by
  have hid : found.id = targetId := rawFind_id h
  obtain ⟨w, hws, hwne⟩ := normalizeItem_whats_str found
  refine ⟨w, hws, hwne, ?_⟩
  simp only [expressPutHandler, h, hws]
  split <;>
  · rw [find?_replaceFirstItem h]
    · rfl
    · show (normalizeItem found).id = targetId
      rw [normalizeItem_id]; exact hid

/-- C8 (amended): on a PUT of an existing item, the hosted variants store
the trimmed supplied value when it is non-empty after trimming and keep the
previous stored value otherwise, with the WhatsApp message falling back to
the fixed default when both are empty; the local variant instead stores
trim(supplied || previous): a whitespace-only supplied value overwrites the
field with the empty string, and when no value is supplied the previous
value is stored re-trimmed. -/
theorem c8_put_field_updates :
    (∀ (gen : Nat → String) (st : HostedState) (id : String) (fields : HostedFields)
      (files : List UploadFile) (c : DbItem), findDbItem st.items id = some c →
      ((findDbItem (netlifyPutHandler gen st id fields files).1.items id).map (fun r => r.title)
        = some (if normalizeText fields.title = "" then c.title
            else normalizeText fields.title)) ∧
      ((findDbItem (netlifyPutHandler gen st id fields files).1.items id).map (fun r => r.desc)
        = some (if normalizeText fields.desc = "" then c.desc
            else normalizeText fields.desc)) ∧
      ((findDbItem (netlifyPutHandler gen st id fields files).1.items id).map
          (fun r => r.whatsappMessage)
        = some (if normalizeText fields.whatsappMessage = ""
            then (if c.whatsappMessage = "" then DEFAULT_WHATS_MESSAGE else c.whatsappMessage)
            else normalizeText fields.whatsappMessage))) ∧
    (∀ (gen : Nat → String) (resolve : String → String) (st : HostedState) (id : String)
      (fields : HostedFields) (files : List UploadFile) (c : DbItem),
      findDbItem st.items id = some c →
      ((findDbItem (supabasePutHandler gen resolve st id fields files).1.items id).map
          (fun r => r.title)
        = some (if normalizeText fields.title = "" then c.title
            else normalizeText fields.title)) ∧
      ((findDbItem (supabasePutHandler gen resolve st id fields files).1.items id).map
          (fun r => r.desc)
        = some (if normalizeText fields.desc = "" then c.desc
            else normalizeText fields.desc)) ∧
      ((findDbItem (supabasePutHandler gen resolve st id fields files).1.items id).map
          (fun r => r.whatsappMessage)
        = some (if normalizeText fields.whatsappMessage = ""
            then (if c.whatsappMessage = "" then DEFAULT_WHATS_MESSAGE else c.whatsappMessage)
            else normalizeText fields.whatsappMessage))) ∧
    (∀ (st : ExpressState) (targetId : String) (body : ExpressBody)
      (files : List ExpressFile) (found : RawItem),
      st.items.find? (fun e => e.id == targetId) = some found →
      (((expressPutHandler st targetId body files).1.items.find?
          (fun e => e.id == targetId)).map (fun e => e.title)
        = some (jsTrim (jsOr body.title found.title))) ∧
      (((expressPutHandler st targetId body files).1.items.find?
          (fun e => e.id == targetId)).map (fun e => e.desc)
        = some (jsTrim (jsOr body.desc found.desc))) ∧
      (∃ w, (normalizeItem found).whatsappMessage = JsStr.str w ∧ w ≠ "" ∧
        (((expressPutHandler st targetId body files).1.items.find?
            (fun e => e.id == targetId)).map (fun e => e.whatsappMessage)
          = some (JsStr.str (jsTrim (jsOr body.whatsappMessage w)))))) := by
  refine ⟨?_, ?_, ?_⟩
  · intro gen st id fields files c h
    exact netlifyPut_fields gen st id fields files c h
  · intro gen resolve st id fields files c h
    exact supabasePut_fields gen resolve st id fields files c h
  · intro st targetId body files found h
    exact ⟨(expressPut_title_desc st targetId body files found h).1,
      (expressPut_title_desc st targetId body files found h).2,
      expressPut_whats st targetId body files found h⟩

/-- C8 counterexample: in the local variant, a PUT supplying a
whitespace-only title ("   ", empty after trimming) on an item titled
"Casa" stores the empty string, not the previous value. -/
theorem c8_counterexample :
    ((((expressPutHandler
        { items := [{ id := "a", title := "Casa", desc := "D",
                      whatsappMessage := JsStr.str "W", media := MediaField.arr [] }],
          uploads := [] } "a" { title := some "   " } []).1.items.find?
        (fun e => e.id == "a")).map (fun e => e.title)) = some "") ∧
    ((some "" : Option String) ≠ some "Casa") := by
  refine ⟨?_, ?_⟩ <;> decide

/-- Witness for C8 at concrete states: a netlify PUT with an empty title
keeps the previous title, and a local PUT with a whitespace-only title
stores the empty string. -/
theorem c8_witness :
    ((findDbItem (netlifyPutHandler (fun _ => "u")
        { items := [{ id := "a", title := "T", desc := "D", whatsappMessage := "W",
                      media := [] }], store := [] } "a" { title := some "New" } []).1.items
        "a").map (fun r => r.title) = some "New") ∧
    ((((expressPutHandler
        { items := [{ id := "a", title := "Casa", desc := "D",
                      whatsappMessage := JsStr.str "W", media := MediaField.arr [] }],
          uploads := [] } "a" { title := some "   " } []).1.items.find?
        (fun e => e.id == "a")).map (fun e => e.title)) = some "") := by
  constructor
  · have h := (c8_put_field_updates.1 (fun _ => "u")
      { items := [{ id := "a", title := "T", desc := "D", whatsappMessage := "W",
                    media := [] }], store := [] } "a" { title := some "New" } []
      { id := "a", title := "T", desc := "D", whatsappMessage := "W", media := [] }
      (by decide)).1
    exact h.trans (by decide)
  · have h := (c8_put_field_updates.2.2
      { items := [{ id := "a", title := "Casa", desc := "D",
                    whatsappMessage := JsStr.str "W", media := MediaField.arr [] }],
        uploads := [] } "a" { title := some "   " } []
      { id := "a", title := "Casa", desc := "D", whatsappMessage := JsStr.str "W",
        media := MediaField.arr [] }
      (by decide)).1
    exact h.trans (by decide)

/-- C2 (amended): an upload exceeding the configured ceiling (40 MiB
hosted, 500 MiB local) persists no new or modified record in any variant;
the hosted variants answer 413 while the local variant's multer error
middleware answers 400. -/
theorem c2_oversize_upload :
    (∀ (gen : Nat → String) (newId : String) (st : HostedState) (req : HostedRequest),
      req.isMultipart = true → anyTooLarge req.files = true →
      netlifyPost gen newId st req = (st, 413, none)) ∧
    (∀ (gen : Nat → String) (st : HostedState) (id : String) (req : HostedRequest),
      req.isMultipart = true → anyTooLarge req.files = true →
      netlifyPut gen st (some id) req = (st, 413, none)) ∧
    (∀ (gen : Nat → String) (mediaItemId dbId : String) (resolve : String → String)
      (st : HostedState) (req : HostedRequest),
      req.isMultipart = true → anyTooLarge req.files = true →
      supabasePost gen mediaItemId dbId resolve st req = (st, 413, none)) ∧
    (∀ (gen : Nat → String) (resolve : String → String) (st : HostedState) (id : String)
      (req : HostedRequest), req.isMultipart = true → anyTooLarge req.files = true →
      supabasePut gen resolve st (some id) req = (st, 413, none)) ∧
    (∀ (genId createdAt : String) (st : ExpressState) (body : ExpressBody)
      (files : List ExpressFile), expressAnyOversize files = true →
      expressPost genId createdAt st body files = (st, 400, none)) ∧
    (∀ (st : ExpressState) (targetId : String) (body : ExpressBody)
      (files : List ExpressFile), expressAnyOversize files = true →
      expressPut st targetId body files = (st, 400, none)) := by
  refine ⟨?_, ?_, ?_, ?_, ?_, ?_⟩
  · intro gen newId st req h1 h2
    simp [netlifyPost, hostedParse, h1, h2]
  · intro gen st id req h1 h2
    simp [netlifyPut, hostedParse, h1, h2]
  · intro gen mediaItemId dbId resolve st req h1 h2
    simp [supabasePost, hostedParse, h1, h2]
  · intro gen resolve st id req h1 h2
    simp [supabasePut, hostedParse, h1, h2]
  · intro genId createdAt st body files h1
    simp [expressPost, h1]
  · intro st targetId body files h1
    simp [expressPut, h1]

/-- C2 counterexample: in the local variant a POST with a file one byte
over the 500 MiB multer limit is answered 400, not 413 as the claim
states (no record is persisted in either case). -/
theorem c2_counterexample :
    (expressPost "g" "t" { items := [], uploads := [] } {}
        [{ filename := "big.png", mimetype := "image/png", size := 524288001 }]
      = ({ items := [], uploads := [] }, 400, none)) ∧
    ((400 : Nat) ≠ 413) := by
  refine ⟨?_, ?_⟩ <;> decide

/-- Witness for C2 at concrete oversize requests: the netlify POST answers
413 leaving the state untouched, the local POST answers 400. -/
theorem c2_witness :
    (netlifyPost (fun _ => "u") "n" { items := [], store := [] }
        { isMultipart := true, fields := {},
          files := [{ filename := "big.png", contentType := "image/png",
                      size := 41943041 }] }
      = ({ items := [], store := [] }, 413, none)) ∧
    (expressPost "g" "t" { items := [], uploads := [] } {}
        [{ filename := "big.png", mimetype := "image/png", size := 524288001 }]
      = ({ items := [], uploads := [] }, 400, none)) :=
  ⟨c2_oversize_upload.1 (fun _ => "u") "n" { items := [], store := [] }
      { isMultipart := true, fields := {},
        files := [{ filename := "big.png", contentType := "image/png", size := 41943041 }] }
      rfl (by decide),
   c2_oversize_upload.2.2.2.2.1 "g" "t" { items := [], uploads := [] } {}
      [{ filename := "big.png", mimetype := "image/png", size := 524288001 }] (by decide)⟩

/-- C3 (amended): DELETE with a missing id answers 400 in the hosted
variants; DELETE with an id answers 200 `{ok:true}` in the hosted variants
whether or not the id exists (an unknown id leaves the state untouched and
still gets 200, never 404); the local variant answers 200 `{ok:true}` for
an existing id and 404 for an unknown one. -/
theorem c3_delete_statuses :
    (∀ (st : HostedState) (id : String), (netlifyDelete st (some id)).2 = (200, true)) ∧
    (∀ st : HostedState, netlifyDelete st none = (st, 400, false)) ∧
    (∀ (st : HostedState) (id : String), findDbItem st.items id = none →
      netlifyDelete st (some id) = (st, 200, true)) ∧
    (∀ (st : HostedState) (id : String), (supabaseDelete st (some id)).2 = (200, true)) ∧
    (∀ st : HostedState, supabaseDelete st none = (st, 400, false)) ∧
    (∀ (st : HostedState) (id : String), findDbItem st.items id = none →
      supabaseDelete st (some id) = (st, 200, true)) ∧
    (∀ (st : ExpressState) (targetId : String),
      st.items.find? (fun e => e.id == targetId) = none →
      expressDelete st targetId = (st, 404, false)) ∧
    (∀ (st : ExpressState) (targetId : String) (found : RawItem),
      st.items.find? (fun e => e.id == targetId) = some found →
      (expressDelete st targetId).2 = (200, true)) := by
  refine ⟨?_, ?_, ?_, ?_, ?_, ?_, ?_, ?_⟩
  · intro st id; rfl
  · intro st; rfl
  · intro st id h
    simp only [netlifyDelete, h]
    rw [filter_id_of_none h]
  · intro st id; rfl
  · intro st; rfl
  · intro st id h
    simp only [supabaseDelete, h]
    rw [filter_id_of_none h]
  · intro st targetId h
    simp [expressDelete, h]
  · intro st targetId found h
    simp [expressDelete, h]

/-- C3 counterexample: a netlify DELETE of an unknown id answers
200 `{ok:true}`, not the 404 the claim states. -/
theorem c3_counterexample :
    (netlifyDelete { items := [], store := [] } (some "zzz")
      = ({ items := [], store := [] }, 200, true)) ∧
    ((200 : Nat) ≠ 404) := by
  refine ⟨?_, ?_⟩ <;> decide

/-- Witness for C3 at concrete states: unknown-id hosted DELETE gets 200,
missing id gets 400, unknown-id local DELETE gets 404. -/
theorem c3_witness :
    (netlifyDelete { items := [], store := [] } (some "zzz")
      = ({ items := [], store := [] }, 200, true)) ∧
    (netlifyDelete { items := [], store := [] } none
      = ({ items := [], store := [] }, 400, false)) ∧
    (expressDelete { items := [], uploads := [] } "zzz"
      = ({ items := [], uploads := [] }, 404, false)) :=
  ⟨c3_delete_statuses.2.2.1 { items := [], store := [] } "zzz" rfl,
   c3_delete_statuses.2.1 { items := [], store := [] },
   c3_delete_statuses.2.2.2.2.2.2.1 { items := [], uploads := [] } "zzz" rfl⟩

theorem netlifyPost_descriptor (gen : Nat → String) (newId : String) (st : HostedState)
    (fields : HostedFields) (l : List MediaRef) (hm : fields.media = some l) (hl : l ≠ [])
    (ht : normalizeText fields.title ≠ "") (hd : normalizeText fields.desc ≠ "") :
    (netlifyPostHandler gen newId st fields []).2.1 = 201 ∧
    (netlifyPostHandler gen newId st fields []).1.store = st.store ∧
    ((netlifyPostHandler gen newId st fields []).1.items.getLast?.map (fun r => r.media)
      = some l) := by
  have hle : l.isEmpty = false := by
    cases l with
    | nil => exact absurd rfl hl
    | cons a r => rfl
  refine ⟨?_, ?_, ?_⟩ <;> simp [netlifyPostHandler, hm, hle, ht, hd, List.getLast?_concat]

theorem netlifyPost_no_media (gen : Nat → String) (newId : String) (st : HostedState)
    (fields : HostedFields) (hm : fields.media = none ∨ fields.media = some []) :
    netlifyPostHandler gen newId st fields [] = (st, 400, none) := by
  simp only [netlifyPostHandler]
  split
  · rfl
  · rcases hm with h | h <;> rw [h] <;> rfl

theorem supabasePost_descriptor (gen : Nat → String) (mediaItemId dbId : String)
    (resolve : String → String) (st : HostedState) (fields : HostedFields)
    (l : List MediaRef) (hm : fields.media = some l) (hl : l ≠ [])
    (ht : normalizeText fields.title ≠ "") (hd : normalizeText fields.desc ≠ "") :
    (supabasePostHandler gen mediaItemId dbId resolve st fields []).2.1 = 201 ∧
    (supabasePostHandler gen mediaItemId dbId resolve st fields []).1.store = st.store ∧
    ((supabasePostHandler gen mediaItemId dbId resolve st fields []).1.items.getLast?.map
        (fun r => r.media) = some l) := by
  have hle : l.isEmpty = false := by
    cases l with
    | nil => exact absurd rfl hl
    | cons a r => rfl
  refine ⟨?_, ?_, ?_⟩ <;>
    simp [supabasePostHandler, hm, hle, ht, hd, List.getLast?_concat]

theorem supabasePost_no_media (gen : Nat → String) (mediaItemId dbId : String)
    (resolve : String → String) (st : HostedState) (fields : HostedFields)
    (hm : fields.media = none ∨ fields.media = some []) :
    supabasePostHandler gen mediaItemId dbId resolve st fields [] = (st, 400, none) := by
  simp only [supabasePostHandler]
  split
  · rfl
  · rcases hm with h | h <;> rw [h] <;> rfl

theorem expressPost_no_files (genId createdAt : String) (st : ExpressState)
    (body : ExpressBody) :
    expressPost genId createdAt st body [] = (st, 400, none) := by
  cases st with
  | mk items uploads =>
    simp [expressPost, expressPostHandler, expressAnyOversize]

/-- C7 (amended): in the hosted variants a POST with no file parts whose
trimmed title and desc are non-empty and whose body supplies a non-empty
media descriptor array creates the item with exactly that array as its
media list and answers 201; when no files and no (or an empty) descriptor
array are supplied the response is 400 and nothing is created.  The local
variant answers 400 to every POST with no files, ignoring any supplied
media descriptors. -/
theorem c7_post_media_resolution :
    (∀ (gen : Nat → String) (newId : String) (st : HostedState) (fields : HostedFields)
      (l : List MediaRef), fields.media = some l → l ≠ [] →
      normalizeText fields.title ≠ "" → normalizeText fields.desc ≠ "" →
      (netlifyPostHandler gen newId st fields []).2.1 = 201 ∧
      (netlifyPostHandler gen newId st fields []).1.store = st.store ∧
      ((netlifyPostHandler gen newId st fields []).1.items.getLast?.map (fun r => r.media)
        = some l)) ∧
    (∀ (gen : Nat → String) (newId : String) (st : HostedState) (fields : HostedFields),
      (fields.media = none ∨ fields.media = some []) →
      netlifyPostHandler gen newId st fields [] = (st, 400, none)) ∧
    (∀ (gen : Nat → String) (mediaItemId dbId : String) (resolve : String → String)
      (st : HostedState) (fields : HostedFields) (l : List MediaRef),
      fields.media = some l → l ≠ [] →
      normalizeText fields.title ≠ "" → normalizeText fields.desc ≠ "" →
      (supabasePostHandler gen mediaItemId dbId resolve st fields []).2.1 = 201 ∧
      ((supabasePostHandler gen mediaItemId dbId resolve st fields []).1.items.getLast?.map
        (fun r => r.media) = some l)) ∧
    (∀ (gen : Nat → String) (mediaItemId dbId : String) (resolve : String → String)
      (st : HostedState) (fields : HostedFields),
      (fields.media = none ∨ fields.media = some []) →
      supabasePostHandler gen mediaItemId dbId resolve st fields [] = (st, 400, none)) ∧
    (∀ (genId createdAt : String) (st : ExpressState) (body : ExpressBody),
      expressPost genId createdAt st body [] = (st, 400, none)) := by
  refine ⟨?_, ?_, ?_, ?_, ?_⟩
  · intro gen newId st fields l hm hl ht hd
    exact netlifyPost_descriptor gen newId st fields l hm hl ht hd
  · intro gen newId st fields hm
    exact netlifyPost_no_media gen newId st fields hm
  · intro gen mediaItemId dbId resolve st fields l hm hl ht hd
    exact ⟨(supabasePost_descriptor gen mediaItemId dbId resolve st fields l hm hl ht hd).1,
      (supabasePost_descriptor gen mediaItemId dbId resolve st fields l hm hl ht hd).2.2⟩
  · intro gen mediaItemId dbId resolve st fields hm
    exact supabasePost_no_media gen mediaItemId dbId resolve st fields hm
  · intro genId createdAt st body
    exact expressPost_no_files genId createdAt st body

/-- C7 counterexample: the local variant answers 400 to a no-file POST even
when a media descriptor array is supplied, and the netlify variant answers
400 to a descriptor-only POST whose title is missing — in both cases nothing
is created, where the claim promises a 201 creation. -/
theorem c7_counterexample :
    (expressPost "g" "t" { items := [], uploads := [] }
        { media := some [{ type := some "image", url := some "x.jpg" }] } []
      = ({ items := [], uploads := [] }, 400, none)) ∧
    (netlifyPostHandler (fun _ => "u") "n" { items := [], store := [] }
        { media := some [{ type := some "image", url := some "x.jpg" }] } []
      = ({ items := [], store := [] }, 400, none)) ∧
    ((400 : Nat) ≠ 201) := by
  refine ⟨?_, ?_, ?_⟩ <;> decide

/-- Witness for C7 at concrete requests: a hosted descriptor-only POST with
title and desc creates the item with that media list (201), an empty
descriptor resolution yields 400, and the local no-file POST yields 400. -/
theorem c7_witness :
    ((netlifyPostHandler (fun _ => "u") "n" { items := [], store := [] }
        { title := some "T", desc := some "D",
          media := some [{ type := some "image", url := some "x.jpg" }] } []).2.1 = 201) ∧
    ((netlifyPostHandler (fun _ => "u") "n" { items := [], store := [] }
        { title := some "T", desc := some "D" } []) = ({ items := [], store := [] }, 400, none)) ∧
    (expressPost "g" "t" { items := [], uploads := [] } {} []
      = ({ items := [], uploads := [] }, 400, none)) :=
  ⟨(c7_post_media_resolution.1 (fun _ => "u") "n" { items := [], store := [] }
      { title := some "T", desc := some "D",
        media := some [{ type := some "image", url := some "x.jpg" }] }
      [{ type := some "image", url := some "x.jpg" }] rfl (by decide) (by decide) (by decide)).1,
   c7_post_media_resolution.2.1 (fun _ => "u") "n" { items := [], store := [] }
      { title := some "T", desc := some "D" } (Or.inl rfl),
   c7_post_media_resolution.2.2.2.2 "g" "t" { items := [], uploads := [] } {}⟩

theorem toItemResponse_media_public (item : RawItem) (m : MediaRef)
    (h : m ∈ (toItemResponse item).media) :
    m.filename = none ∧ m.key = none ∧ m.path = none ∧ m.contentType = none := by
  simp only [toItemResponse] at h
  obtain ⟨x, _, rfl⟩ := List.mem_map.mp h
  exact ⟨rfl, rfl, rfl, rfl⟩

theorem withMediaUrls_key (media : List MediaRef) :
    (withMediaUrls media).map (fun m => m.key) = media.map (fun m => m.key) := by
  unfold withMediaUrls
  rw [List.map_map]
  apply List.map_congr_left
  intro a _
  by_cases hu : truthyOpt a.url = true
  · simp [hu]
  · cases hk : a.key with
    | none => simp [hu, hk]
    | some k =>
      by_cases hke : k = "" <;> simp [hu, hk, hke]

theorem withPublicUrls_path (resolve : String → String) (media : List MediaRef) :
    (withPublicUrls resolve media).map (fun m => m.path) = media.map (fun m => m.path) := by
  unfold withPublicUrls
  rw [List.map_map]
  apply List.map_congr_left
  intro a _
  by_cases hu : truthyOpt a.url = true
  · simp [hu]
  · cases hk : a.path with
    | none => simp [hu, hk]
    | some p =>
      by_cases hpe : p = "" <;> simp [hu, hk, hpe]

theorem netlifyGetOne_keys (st : HostedState) (id : String) (item : DbItem)
    (h : findDbItem st.items id = some item) :
    (netlifyGetOne st id).2.map (fun d => d.media.map (fun m => m.key))
      = some (item.media.map (fun m => m.key)) := by
  simp only [netlifyGetOne, h, Option.map_some]
  show some ((withMediaUrls item.media).map (fun m => m.key)) = _
  rw [withMediaUrls_key]

/-- C4 (amended): the local variant's responses expose only type and url
per media entry (toItemResponse projects every other field away); the
hosted variants' responses resolve urls but retain each media entry's
storage key (netlify) or storage path (supabase) alongside them — internal
storage identifiers do reach clients there, e.g. through GET by id. -/
theorem c4_response_media_fields :
    (∀ (item : RawItem) (m : MediaRef), m ∈ (toItemResponse item).media →
      m.filename = none ∧ m.key = none ∧ m.path = none ∧ m.contentType = none) ∧
    (∀ media : List MediaRef,
      (withMediaUrls media).map (fun m => m.key) = media.map (fun m => m.key)) ∧
    (∀ (resolve : String → String) (media : List MediaRef),
      (withPublicUrls resolve media).map (fun m => m.path) = media.map (fun m => m.path)) ∧
    (∀ (st : HostedState) (id : String) (item : DbItem), findDbItem st.items id = some item →
      (netlifyGetOne st id).2.map (fun d => d.media.map (fun m => m.key))
        = some (item.media.map (fun m => m.key))) := by
  refine ⟨?_, withMediaUrls_key, ?_, ?_⟩
  · intro item m h
    exact toItemResponse_media_public item m h
  · intro resolve media
    exact withPublicUrls_path resolve media
  · intro st id item h
    exact netlifyGetOne_keys st id item h

/-- C4 counterexample: a netlify GET by id returns a media entry still
carrying its storage key "k", while the claim says media entries contain
only type and url. -/
theorem c4_counterexample :
    (((netlifyGetOne
        { items := [{ id := "a", title := "T", desc := "D", whatsappMessage := "W",
                      media := [{ type := some "image", key := some "k" }] }],
          store := ["k"] } "a").2.bind (fun d => d.media.head?)).map (fun m => m.key)
      = some (some "k")) ∧
    ((some (some "k") : Option (Option String)) ≠ some none) := by
  refine ⟨?_, ?_⟩ <;> decide

/-- Witness for C4 at concrete data: the local projection blanks the
internal fields and the netlify GET keeps the key list. -/
theorem c4_witness :
    (({ type := some "image", url := some "u" } : MediaRef).filename = none ∧
      ({ type := some "image", url := some "u" } : MediaRef).key = none ∧
      ({ type := some "image", url := some "u" } : MediaRef).path = none ∧
      ({ type := some "image", url := some "u" } : MediaRef).contentType = none) ∧
    ((netlifyGetOne
        { items := [{ id := "a", title := "T", desc := "D", whatsappMessage := "W",
                      media := [{ type := some "image", key := some "k" }] }],
          store := ["k"] } "a").2.map (fun d => d.media.map (fun m => m.key))
      = some [some "k"]) :=
  ⟨c4_response_media_fields.1
      { id := "a", title := "T", desc := "D", whatsappMessage := JsStr.str "W",
        media := MediaField.arr
          [{ type := some "image"
             url := some "u"
             filename := some "f" }] }
      { type := some "image", url := some "u" } (by decide),
   (c4_response_media_fields.2.2.2
      { items := [{ id := "a", title := "T", desc := "D", whatsappMessage := "W",
                    media := [{ type := some "image", key := some "k" }] }],
        store := ["k"] } "a"
      { id := "a", title := "T", desc := "D", whatsappMessage := "W",
        media := [{ type := some "image", key := some "k" }] } (by decide)).trans (by decide)⟩
